import Mathlib

/-!
Verification of the RRUG core engine (rrug_core.py).

Shallow embedding of the scanning, parsing, layout and state-management
sections of `rrug_core.py` (the "Reactive Rig UI Generator" core), together
with theorems settling the specification claims about them.

Conventions of the embedding:
* Python strings are modelled as `List Char` (Lean `String.data`); the
  whitespace class used by `str.strip` and the regex `\s` is modelled by
  `pyIsSpace`, restricted to the ASCII whitespace characters.
* Python dicts keyed by collection name are modelled as association lists
  (`List (String × _)`); `dict.__setitem__` replaces the value at the first
  matching key in place (keeping iteration order) and appends otherwise,
  exactly like CPython dicts.
* The regular expressions `_EXPLICIT_NAME_PATTERN` and `_FLAG_TUPLE_PATTERN`
  are compiled by hand into recursive scanners with the exact leftmost,
  non-overlapping match semantics of `re.search` / `re.findall` / `re.sub`
  for these specific patterns.
* Recursions that Python performs with unbounded host recursion or with
  a cursor that jumps forward are written with an explicit fuel argument;
  every wrapper passes a fuel that provably can never run out for the
  inputs the program produces (each step consumes at least one element).
* The icon validator (`_get_valid_blender_icons`) queries the host and is
  therefore passed in as a function `iconValid : String → Bool`, matching
  the spec's requirement that it be injectable.
-/

set_option autoImplicit false

namespace Rrug

/-! ## Basic character-list utilities (Python string semantics) -/

/-- The apostrophe character, used by the parameter quote-stripping rule. -/
def quoteChar : Char := Char.ofNat 39

/-- A one-character string holding the apostrophe. -/
def quoteStr : String := String.mk [quoteChar]

/-- Model of Python's whitespace class (`str.strip` / regex `\s`),
restricted to the ASCII whitespace characters. -/
def pyIsSpace (c : Char) : Bool :=
  c = ' ' || c = '\t' || c = '\n' || c = '\r' || c = '\x0B' || c = '\x0C'

/-- Python `str.strip()`: drop whitespace from both ends. -/
def pyStrip (cs : List Char) : List Char :=
  ((cs.dropWhile pyIsSpace).reverse.dropWhile pyIsSpace).reverse

/-- Test `leadsWith pat cs`: true when `pat` is an initial segment of `cs`. -/
def leadsWith : List Char → List Char → Bool
  | [], _ => true
  | _ :: _, [] => false
  | p :: ps, c :: cs => p = c && leadsWith ps cs

/-- Split a character list at the first occurrence of `c` (excluded);
`none` when `c` does not occur. -/
def splitFirst (c : Char) : List Char → Option (List Char × List Char)
  | [] => none
  | a :: rest =>
    if a = c then some ([], rest)
    else
      match splitFirst c rest with
      | some (pre, post) => some (a :: pre, post)
      | none => none

/-- Python's substring containment test (`pat in s`) on character lists. -/
def hasSubL (pat : List Char) : List Char → Bool
  | [] => leadsWith pat []
  | c :: cs => leadsWith pat (c :: cs) || hasSubL pat cs

/-- Python's substring containment test (`pat in s`) on strings. -/
def hasSub (pat s : String) : Bool := hasSubL pat.data s.data

/-- Worker for `replaceDel`, with fuel (each step consumes at least one
character, so fuel `s.length` never runs out). -/
def replaceDelAux (pat : List Char) : Nat → List Char → List Char
  | _, [] => []
  | 0, s => s
  | fuel + 1, c :: cs =>
    if !pat.isEmpty && leadsWith pat (c :: cs) then
      replaceDelAux pat fuel (List.drop pat.length (c :: cs))
    else
      c :: replaceDelAux pat fuel cs

/-- Python `s.replace(pat, "")`: delete all non-overlapping occurrences of
`pat`, scanning left to right (the use site always has `pat ≠ ""`). -/
def replaceDel (pat s : List Char) : List Char :=
  replaceDelAux pat s.length s

/-! ## The name-language parser (`_parse_collection_name`)

Embeds lines 406–464 of `rrug_core.py`. -/

/-- The optional `[...]` qualifier directly after a span: matches
`\[[^\]]+\]` at the head, returning the bracket's content and the rest. -/
def bracketParam : List Char → Option (List Char × List Char)
  | '[' :: rest =>
    match splitFirst ']' rest with
    | some (inner, after) => if inner.isEmpty then none else some (inner, after)
    | none => none
  | _ => none

/-- Match `_EXPLICIT_NAME_PATTERN` = `\{([^}]+)\}(?:\[[^\]]+\])?` at the
head of the list; returns `(whole match, group 1)`. -/
def labelAt : List Char → Option (List Char × List Char)
  | '\x7b' :: rest =>
    match splitFirst '\x7d' rest with
    | some (content, after) =>
      if content.isEmpty then none
      else
        match bracketParam after with
        | some (inner, _) =>
          some ('\x7b' :: content ++ '\x7d' :: '[' :: inner ++ [']'], content)
        | none => some ('\x7b' :: content ++ ['\x7d'], content)
    | none => none
  | _ => none

/-- Model of `re.search` for `_EXPLICIT_NAME_PATTERN`: leftmost match anywhere in
the list; returns `(whole match, group 1)`. -/
def labelSearch : List Char → Option (List Char × List Char)
  | [] => none
  | c :: rest =>
    match labelAt (c :: rest) with
    | some r => some r
    | none => labelSearch rest

/-- Model of `_FLAG_KEYS`: the flag registry's keys sorted by length, longest first
(Python's stable sort of the `FLAG_CONFIG` insertion order). -/
def flagKeys : List String :=
  ["INTERNALS", "DISPLAYS", "SETTINGS", "INLINE", "FILTER", "SNAPS",
   "BOARD", "LINK", "ICON", "JOIN", "HIDE", "SKIP", "TO"]

/-- Try to match one alternative of `(FLAGNAME)` right after the opening
parenthesis: the first key `k` such that the input continues with `k)`.
Returns the key and the rest after the closing parenthesis. -/
def matchKey : List String → List Char → Option (String × List Char)
  | [], _ => none
  | k :: ks, cs =>
    if leadsWith (k.data ++ [')']) cs then some (k, cs.drop (k.data.length + 1))
    else matchKey ks cs

/-- One left-to-right pass implementing both
`_FLAG_TUPLE_PATTERN.findall` (first component) and
`_FLAG_TUPLE_PATTERN.sub("", ·)` (second component), with fuel
(each step consumes at least one character). The pattern is
`\((K1|K2|...)\)(?:\s*\[([^\]]+)\])?`; an absent parameter group is the
empty string, as returned by `re.findall`. -/
def flagScanF : Nat → List Char → List (String × String) × List Char
  | _, [] => ([], [])
  | 0, s => ([], s)
  | fuel + 1, c :: cs =>
    if c = '(' then
      match matchKey flagKeys cs with
      | some (k, after) =>
        match bracketParam (after.dropWhile pyIsSpace) with
        | some (inner, after2) =>
          let r := flagScanF fuel after2
          ((k, String.mk inner) :: r.1, r.2)
        | none =>
          let r := flagScanF fuel after
          ((k, "") :: r.1, r.2)
      | none =>
        let r := flagScanF fuel cs
        (r.1, c :: r.2)
    else
      let r := flagScanF fuel cs
      (r.1, c :: r.2)

/-- Scan a whole character list for flag tuples. -/
def flagScan (s : List Char) : List (String × String) × List Char :=
  flagScanF s.length s

/-- A flag's declared parameter domain (`FLAG_CONFIG[...]["params"]`):
`None`, a fixed set of literal values, or the `__DYNAMIC__` marker. -/
inductive ParamSpec where
  | noneP : ParamSpec
  | fixedP (vals : List String) : ParamSpec
  | dynamicP : ParamSpec
deriving DecidableEq, Repr

/-- One `FLAG_CONFIG` entry: parameter domain plus whether an external
validator callback is attached (only ICON has one). -/
structure FlagRule where
  params : ParamSpec
  hasValidator : Bool
deriving DecidableEq, Repr

/-- Lookup `FLAG_CONFIG.get(f)` in the flag registry dict of lines 64–78. Only
ICON carries a validator callback (icon-name membership in the host
vocabulary) and only FILTER has a fixed parameter set. -/
def flagConfig (f : String) : Option FlagRule :=
  if f = "INLINE" then some ⟨ParamSpec.noneP, false⟩
  else if f = "LINK" then some ⟨ParamSpec.noneP, false⟩
  else if f = "ICON" then some ⟨ParamSpec.dynamicP, true⟩
  else if f = "JOIN" then some ⟨ParamSpec.noneP, false⟩
  else if f = "HIDE" then some ⟨ParamSpec.noneP, false⟩
  else if f = "TO" then some ⟨ParamSpec.noneP, false⟩
  else if f = "SKIP" then some ⟨ParamSpec.noneP, false⟩
  else if f = "FILTER" then some ⟨ParamSpec.fixedP ["IFHIDDEN"], false⟩
  else if f = "DISPLAYS" then some ⟨ParamSpec.noneP, false⟩
  else if f = "SETTINGS" then some ⟨ParamSpec.noneP, false⟩
  else if f = "SNAPS" then some ⟨ParamSpec.noneP, false⟩
  else if f = "INTERNALS" then some ⟨ParamSpec.noneP, false⟩
  else if f = "BOARD" then some ⟨ParamSpec.noneP, false⟩
  else none

/-- Parameter normalization (lines 436–439): strip, then either take the
single-quoted content verbatim or upper-case. `Char.toUpper` models
Python's `str.upper` on the ASCII range. -/
def normParamL (p : List Char) : List Char :=
  if p.isEmpty then p
  else
    let q := pyStrip p
    if q.head? = some quoteChar ∧ q.getLast? = some quoteChar then
      (q.drop 1).dropLast
    else q.map Char.toUpper

/-- Parameter validation for one flag tuple (lines 441–453): returns the
error message (if any) and the icon value after the validator step, given
the icon value before it. Mirrors the source exactly: the `'ERROR'` icon
sentinel is set only in the validator-rejection branch and only for ICON. -/
def tupleCheckR (rules : FlagRule) (iconValid : String → Bool) (f p : String)
    (icon0 : Option String) : Option String × Option String :=
  let msg0 : Option String :=
    match rules.params with
    | ParamSpec.noneP =>
      if p ≠ "" then some ("SYNTAX ERROR: " ++ f ++ " takes no parameters") else none
    | ParamSpec.fixedP vals =>
      if p ≠ "" ∧ p ∉ vals then
        some ("SYNTAX ERROR: " ++ quoteStr ++ p ++ quoteStr ++ " is not valid for " ++ f)
      else none
    | ParamSpec.dynamicP => none
  if msg0 = none ∧ rules.hasValidator = true then
    if p = "" then (some ("SYNTAX ERROR: " ++ f ++ " missing parameter"), icon0)
    else if iconValid p then (none, icon0)
    else (some ("SYNTAX ERROR: " ++ quoteStr ++ p ++ quoteStr ++ " invalid"),
          if f = "ICON" then some "ERROR" else icon0)
  else (msg0, icon0)

/-- The error message (if any) produced by processing one raw flag tuple,
after name stripping and parameter normalization. -/
def tupleMsgT (iconValid : String → Bool) (t : String × String) : Option String :=
  let f := String.mk (pyStrip t.1.data)
  match flagConfig f with
  | none => none
  | some rules => (tupleCheckR rules iconValid f (String.mk (normParamL t.2.data)) none).1

/-- The mutable state of the flag-processing loop (lines 409–414). -/
structure PState where
  valid : Bool
  err : Option String
  icon : Option String
  active : List String
  flags : List (String × String)
deriving DecidableEq, Repr

/-- Process one flag tuple (loop body, lines 431–461). `active` models the
Python set by inserting unseen keywords at the end. -/
def procTuple (iconValid : String → Bool) (st : PState) (t : String × String) : PState :=
  let f := String.mk (pyStrip t.1.data)
  match flagConfig f with
  | none => st
  | some rules =>
    let p := String.mk (normParamL t.2.data)
    let r := tupleCheckR rules iconValid f p st.icon
    let active1 := if f ∈ st.active then st.active else st.active ++ [f]
    let flags1 := st.flags ++ [(f, p)]
    match r.1 with
    | some m => ⟨false, some m, r.2, active1, flags1⟩
    | none => ⟨st.valid, st.err, if f = "ICON" then some p else r.2, active1, flags1⟩

/-- The parse result (`_parse_collection_name`'s returned dict). -/
structure ParseResult where
  id : String
  clean_name : String
  flag_list : List (String × String)
  active_flags : List String
  icon_name : Option String
  is_valid : Bool
  error_msg : Option String
deriving DecidableEq, Repr

/-- Label extraction and removal (lines 416–420): `(group 1, remainder)`
where the remainder has **all** occurrences of the whole match deleted
(Python `str.replace`). -/
def labelStrip (raw : String) : List Char × List Char :=
  match labelSearch raw.data with
  | some (g0, g1) => (pyStrip g1, replaceDel g0 raw.data)
  | none => ([], raw.data)

/-- The flag tuples found in a raw name (after label removal). -/
def parseTuples (raw : String) : List (String × String) :=
  (flagScan (labelStrip raw).2).1

/-- The stripped leftover text of a raw name after removing the label span
and all flag tuples (line 425). -/
def parseLeftover (raw : String) : List Char :=
  pyStrip (flagScan (labelStrip raw).2).2

/-- Model of `_parse_collection_name` (lines 406–464). The host icon vocabulary is
injected as `iconValid`. -/
def parse_collection_name (iconValid : String → Bool) (raw : String) : ParseResult :=
  let clean0 := (labelStrip raw).1
  let tuples := parseTuples raw
  let leftover := parseLeftover raw
  let init : PState :=
    if leftover.isEmpty then ⟨true, none, none, [], []⟩
    else ⟨false, some ("SYNTAX ERROR: " ++ String.mk leftover), none, [], []⟩
  let st := tuples.foldl (procTuple iconValid) init
  { id := raw,
    clean_name := if leftover.isEmpty then String.mk clean0 else "",
    flag_list := st.flags,
    active_flags := st.active,
    icon_name := st.icon,
    is_valid := st.valid,
    error_msg := st.err }

/-- "Last error wins": fold a list of optional messages over an initial
error slot, each `some` overwriting the current value. -/
def lastWins (init : Option String) (msgs : List (Option String)) : Option String :=
  msgs.foldl (fun acc m => match m with | some x => some x | none => acc) init

/-! ## Data model: nodes, node maps, the external tree -/

/-- A tree context (functional zone), one of the four constants
`CTX_VIS`, `CTX_PROP`, `CTX_SNAP`, `CTX_INTERNAL`. -/
inductive Ctx where
  | VIS : Ctx
  | PROP : Ctx
  | SNAP : Ctx
  | INTERNAL : Ctx
deriving DecidableEq, Repr

/-- Bidirectional pairing metadata (`link_meta` entries). -/
structure LinkMeta where
  partner : String
  is_source : Bool
deriving DecidableEq, Repr

/-- One node of the internal node map (the dict built at lines 368–382).
`overflow` is absent from the initial dict and set later; it is modelled
as a field that starts `false`. -/
structure Node where
  name : String
  parent : Option String
  children : List String
  is_visible : Bool
  is_solo : Bool
  label : String
  active_flags : List String
  flag_list : List (String × String)
  icon_name : Option String
  is_valid : Bool
  ui_layout : List (List String)
  link_meta : Option LinkMeta
  tree_type : Option Ctx
  overflow : Bool
deriving DecidableEq, Repr

/-- The `node_map`: a Python dict keyed by raw collection name, modelled as an
association list in insertion order. -/
abbrev NodeMap : Type := List (String × Node)

/-- Lookup `node_map.get(name)`: first entry with the given key. -/
def nmLookup (nm : NodeMap) (k : String) : Option Node :=
  ((nm : List (String × Node)).find? (fun e => e.1 = k)).map (·.2)

/-- Assignment `node_map[name] = node`: replace the value at the first matching key
(keeping its position) or append a new entry, like a CPython dict. -/
def nmSet : NodeMap → String → Node → NodeMap
  | [], k, v => [(k, v)]
  | e :: rest, k, v =>
    if e.1 = k then (k, v) :: rest else e :: nmSet rest k v

/-- Apply a function to the node stored at `k` (no-op when absent). -/
def nmModify (nm : NodeMap) (k : String) (f : Node → Node) : NodeMap :=
  match nmLookup nm k with
  | some nd => nmSet nm k (f nd)
  | none => nm

/-- The `active_flags` of `node_map.get(name, {})` (empty set when the
node is missing). -/
def flagsOf (nm : NodeMap) (k : String) : List String :=
  match nmLookup nm k with
  | some nd => nd.active_flags
  | none => []

/-- The `children` of `node_map.get(name, {})`. -/
def childrenOf (nm : NodeMap) (k : String) : List String :=
  match nmLookup nm k with
  | some nd => nd.children
  | none => []

/-- One external bone collection as the scanner sees it: name, the two
monitored booleans, and child collections in declaration order. -/
inductive BColl where
  | mk (name : String) (is_visible : Bool) (is_solo : Bool) (children : List BColl) : BColl

/-- The name of an external collection. -/
def BColl.name : BColl → String
  | .mk n _ _ _ => n

/-- The `is_visible` attribute of an external collection. -/
def BColl.is_visible : BColl → Bool
  | .mk _ v _ _ => v

/-- The `is_solo` attribute of an external collection. -/
def BColl.is_solo : BColl → Bool
  | .mk _ _ s _ => s

/-- The child collections of an external collection. -/
def BColl.children : BColl → List BColl
  | .mk _ _ _ cs => cs

/-- The constant `MAX_UI_NESTING` (line 39). -/
def MAX_UI_NESTING : Nat := 8

/-! ## The tree scanner (`run_structure_scanner`, lines 336–404) -/

/-- Zone classification by raw-substring containment: the `elif` chain at
lines 351–354 / 363–366, applied to the raw collection name. -/
def classifyName (n : String) : Option Ctx :=
  if hasSub "(DISPLAYS)" n then some Ctx.VIS
  else if hasSub "(SETTINGS)" n then some Ctx.PROP
  else if hasSub "(SNAPS)" n then some Ctx.SNAP
  else if hasSub "(INTERNALS)" n then some Ctx.INTERNAL
  else none

/-- The scanner's result (`node_map`, `root_collection_names`,
`traversal_order`). -/
structure ScanSt where
  node_map : NodeMap
  root_collection_names : List String
  traversal_order : List String
deriving DecidableEq, Repr

/-- Append a child id to a parent's `children` list (the
`node_map[parent_id]["children"].append(raw_name)` step). -/
def nmAppendChild (nm : NodeMap) (parentId childId : String) : NodeMap :=
  nmModify nm parentId (fun nd => { nd with children := nd.children ++ [childId] })

/-- Set the `overflow` marker on a node (line 398). -/
def nmSetOverflow (nm : NodeMap) (k : String) : NodeMap :=
  nmModify nm k (fun nd => { nd with overflow := true })

mutual
/-- Process one popped stack entry `(b_coll, parent_id, depth, tree_ctx)`
of the scanner's depth-first loop (lines 357–398), then its subtree.
The explicit LIFO stack with reverse-order child pushes visits nodes in
left-to-right preorder, which is what this recursion computes. -/
def scanNode (ignoreSkip : Bool) (parent : Option String) (depth : Nat)
    (ctx0 : Option Ctx) (st : ScanSt) : BColl → ScanSt
  | .mk raw vis solo children =>
    let ctx := match ctx0 with
      | some c => some c
      | none => classifyName raw
    let node : Node :=
      { name := raw, parent := parent, children := [], is_visible := vis,
        is_solo := solo, label := raw, active_flags := [], flag_list := [],
        icon_name := none, is_valid := true, ui_layout := [],
        link_meta := none, tree_type := ctx, overflow := false }
    let st1 : ScanSt :=
      { st with traversal_order := st.traversal_order ++ [raw],
                node_map := nmSet st.node_map raw node }
    let st2 : ScanSt :=
      match parent with
      | some p => { st1 with node_map := nmAppendChild st1.node_map p raw }
      | none => { st1 with root_collection_names := st1.root_collection_names ++ [raw] }
    if !ignoreSkip && hasSub "(SKIP)" raw then st2
    else if !ignoreSkip && ctx = some Ctx.INTERNAL then st2
    else if depth < MAX_UI_NESTING then
      scanChildList ignoreSkip raw (depth + 1) ctx st2 children
    else if children.length > 0 then
      { st2 with node_map := nmSetOverflow st2.node_map raw }
    else st2

/-- Scan a list of sibling subtrees in declaration order. -/
def scanChildList (ignoreSkip : Bool) (parent : String) (depth : Nat)
    (ctx : Option Ctx) (st : ScanSt) : List BColl → ScanSt
  | [] => st
  | c :: rest =>
    scanChildList ignoreSkip parent depth ctx
      (scanNode ignoreSkip (some parent) depth ctx st c) rest
end

/-- Scan the armature's root collections in declaration order (the
`start_collection is None` entry path: each root's context is decided by
the naming-tag chain, which `scanNode` re-applies when the inherited
context is `None`). -/
def scanRootList (ignoreSkip : Bool) (st : ScanSt) : List BColl → ScanSt
  | [] => st
  | r :: rest => scanRootList ignoreSkip (scanNode ignoreSkip none 0 none st r) rest

/-- Model of `run_structure_scanner(armature)` with the default entry point: the
armature is modelled by its list of top-level collections. -/
def run_structure_scanner (arm : List BColl) (ignoreSkip : Bool) : ScanSt :=
  scanRootList ignoreSkip ⟨[], [], []⟩ arm

/-- Model of `run_data_parsing` (lines 466–484): parse every scanned name and
update the node metadata; an invalid parse substitutes the error message
for the label. -/
def run_data_parsing (iconValid : String → Bool) (scan : ScanSt) : ScanSt :=
  { scan with node_map := (scan.node_map : List (String × Node)).map (fun e =>
      let parsed := parse_collection_name iconValid e.1
      (e.1, { e.2 with
        label := if parsed.is_valid then parsed.clean_name
                 else (parsed.error_msg.getD parsed.clean_name),
        flag_list := parsed.flag_list,
        active_flags := parsed.active_flags,
        icon_name := parsed.icon_name,
        is_valid := parsed.is_valid })) }

/-! ## Layout helpers (`_helper_generate_clean_layout`,
`_helper_resolve_links`, lines 486–527) -/

/-- The row-buffer loop of `_helper_generate_clean_layout`: append each
name to the current buffer and close the row whenever the node lacks a
JOIN flag; a non-empty trailing buffer is closed at the end. -/
def cleanLayoutAux (nm : NodeMap) (buf : List String) : List String → List (List String)
  | [] => if buf.isEmpty then [] else [buf]
  | n :: rest =>
    let buf1 := buf ++ [n]
    if "JOIN" ∈ flagsOf nm n then cleanLayoutAux nm buf1 rest
    else buf1 :: cleanLayoutAux nm [] rest

/-- Model of `_helper_generate_clean_layout(node_names, node_map)` (lines 486–503). -/
def helper_generate_clean_layout (node_names : List String) (nm : NodeMap) :
    List (List String) :=
  cleanLayoutAux nm [] node_names

/-- The partition the specification describes, written as a direct
recursion instead of a buffer loop: a node without JOIN always ends its
row; a JOIN node is prepended to the row its successor starts. -/
def rowsSpec (nm : NodeMap) : List String → List (List String)
  | [] => []
  | n :: rest =>
    if "JOIN" ∈ flagsOf nm n then
      match rowsSpec nm rest with
      | [] => [[n]]
      | r :: rs => (n :: r) :: rs
    else [n] :: rowsSpec nm rest

/-- Model of `_helper_resolve_links(node_names, node_map)` (lines 505–527): walk
the sibling list with an index that advances by exactly one each step
(also right after a pair is established), linking every LINK-flagged node
to its immediate successor. -/
def helper_resolve_links : List String → NodeMap → NodeMap
  | [], nm => nm
  | n :: rest, nm =>
    let nm1 :=
      match nmLookup nm n with
      | none => nm
      | some curr =>
        if "LINK" ∈ curr.active_flags then
          match rest with
          | [] => nm
          | next :: _ =>
            match nmLookup nm next with
            | none => nm
            | some nextNode =>
              let nmA := nmSet nm n { curr with link_meta := some ⟨next, true⟩ }
              nmSet nmA next { nextNode with link_meta := some ⟨n, false⟩ }
        else nm
    helper_resolve_links rest nm1

/-! ## State management (lines 623–764) -/

/-- One external collection's monitored attributes (the parts of a
Blender bone collection the state engine reads and writes). -/
structure Coll where
  is_visible : Bool
  is_solo : Bool
deriving DecidableEq, Repr

/-- The external armature: its collections (all levels), keyed by name,
in `collections_all` order. -/
abbrev ArmMap : Type := List (String × Coll)

/-- Model of `safe_get_collection`: name lookup, `none` when absent. -/
def armLookup (arm : ArmMap) (k : String) : Option Coll :=
  ((arm : List (String × Coll)).find? (fun e => e.1 = k)).map (·.2)

/-- Write a collection's attributes back to the external tree. -/
def armSet : ArmMap → String → Coll → ArmMap
  | [], k, v => [(k, v)]
  | e :: rest, k, v =>
    if e.1 = k then (k, v) :: rest else e :: armSet rest k v

/-- One level of `_get_descendant_names`'s preorder walk: for each child
in order, record it and splice in its own descendants (`descend`). -/
def descendLevel (descend : String → List String) : List String → List String
  | [] => []
  | c :: rest => c :: (descend c ++ descendLevel descend rest)

/-- Worker for `_get_descendant_names`: preorder walk of the `children`
lists. The Python original recurses without bound (and would diverge on a
cyclic map); the fuel argument bounds the recursion depth. Every node map
built by the scanner has depth at most `MAX_UI_NESTING`, so any fuel
above that is exact for the maps the program produces. -/
def descendantsAux (nm : NodeMap) : Nat → String → List String
  | 0, _ => []
  | fuel + 1, name => descendLevel (descendantsAux nm fuel) (childrenOf nm name)

/-- Model of `_get_descendant_names(node_map, start_coll_name)` (lines 627–636). -/
def get_descendant_names (fuel : Nat) (nm : NodeMap) (start : String) : List String :=
  descendantsAux nm fuel start

/-- The solo value `_cascade_solo_state` actually writes for one member of
the cascade set: the requested value, except that soloing a HIDE-flagged,
currently invisible collection is forced to `false` (lines 647–652). -/
def expectedCascadeSolo (newState : Bool) (nm : NodeMap) (c : Coll) (name : String) : Bool :=
  if newState ∧ "HIDE" ∈ flagsOf nm name ∧ c.is_visible = false then false
  else newState

/-- The loop body of `_cascade_solo_state` (lines 644–656): look the name
up in the external tree, flip the HIDE-gated target state to `false`, and
write the final state to both the external tree and the node map. -/
def cascadeSoloStep (newState : Bool) (acc : ArmMap × NodeMap) (name : String) :
    ArmMap × NodeMap :=
  match armLookup acc.1 name with
  | none => acc
  | some coll =>
    let finalState := expectedCascadeSolo newState acc.2 coll name
    let arm1 := if coll.is_solo ≠ finalState
                then armSet acc.1 name { coll with is_solo := finalState }
                else acc.1
    let nm1 := nmModify acc.2 name (fun nd => { nd with is_solo := finalState })
    (arm1, nm1)

/-- Model of `_cascade_solo_state(armature, scan_result, start_coll_name,
new_state)` (lines 638–656), acting on the external tree and the packet's
node map. -/
def cascade_solo_state (fuel : Nat) (arm : ArmMap) (nm : NodeMap)
    (startName : String) (newState : Bool) : ArmMap × NodeMap :=
  match armLookup arm startName with
  | none => (arm, nm)
  | some _ =>
    let toToggle := startName :: get_descendant_names fuel nm startName
    toToggle.foldl (cascadeSoloStep newState) (arm, nm)

/-- One entry of the change log: the monitored property's name and the
new value recorded for it. -/
structure ChangeRec where
  property : String
  toVal : Option Bool
deriving DecidableEq, Repr

/-- The change log `diff_log`: collection name → recorded changes. -/
abbrev ChangeLog : Type := List (String × List ChangeRec)

/-- Lookup `diff_log.get(name, [])`. -/
def logGet (log : ChangeLog) (k : String) : List ChangeRec :=
  (((log : List (String × List ChangeRec)).find? (fun e => e.1 = k)).map (·.2)).getD []

/-- Access `node.get(key)` for the monitored keys. -/
def nodeKeyVal (nd : Node) (k : String) : Option Bool :=
  if k = "is_visible" then some nd.is_visible
  else if k = "is_solo" then some nd.is_solo
  else none

/-- Model of `_run_temporal_comparator(old_packet, new_packet, manifest)`
(lines 658–675). -/
def run_temporal_comparator (oldPacket : Option ScanSt) (newPacket : ScanSt)
    (keysToMonitor : List String) : ChangeLog :=
  if keysToMonitor.isEmpty then []
  else
    let oldMap : NodeMap := match oldPacket with
      | some p => p.node_map
      | none => []
    (newPacket.node_map : List (String × Node)).foldl (fun log e =>
      match nmLookup oldMap e.1 with
      | none => log
      | some oldNode =>
        let changes := keysToMonitor.foldl (fun acc k =>
          let newVal := nodeKeyVal e.2 k
          let oldVal := nodeKeyVal oldNode k
          if newVal ≠ oldVal then acc ++ [⟨k, newVal⟩] else acc) []
        if changes.isEmpty then log else log ++ [(e.1, changes)]) []

/-- The monitored-keys manifest of `guard_enforcer` (line 747). -/
def monitoredKeys : List String := ["is_visible", "is_solo"]

/-- The engine state the guards act on: the external tree plus the
current packet's node map (the packet's other fields are untouched by the
guards). -/
structure GState where
  arm : ArmMap
  nm : NodeMap
deriving DecidableEq

/-- Loop body of `_guard_hide_state` (lines 679–708) for one node-map
entry, threaded over the acted flag. -/
def guardHideStep (fuel : Nat) (log : ChangeLog) (acc : GState × Bool)
    (name : String) : GState × Bool :=
  match nmLookup acc.1.nm name with
  | none => acc
  | some nd =>
    if "HIDE" ∉ nd.active_flags then acc
    else
      let parentSoloOk : Bool :=
        match nd.parent with
        | some p =>
          match nmLookup acc.1.nm p with
          | some pn => pn.is_solo
          | none => false
        | none => true
      if !parentSoloOk then acc
      else
        let changes := logGet log name
        match changes.find? (fun c => c.property = "is_visible") with
        | some visChange =>
          if visChange.toVal = some true then
            if nd.is_solo = false then
              let r := cascade_solo_state fuel acc.1.arm acc.1.nm name true
              (⟨r.1, r.2⟩, true)
            else acc
          else
            if nd.is_solo = true then
              let r := cascade_solo_state fuel acc.1.arm acc.1.nm name false
              (⟨r.1, r.2⟩, true)
            else acc
        | none =>
          if nd.is_visible = false ∧ nd.is_solo = true then
            let r := cascade_solo_state fuel acc.1.arm acc.1.nm name false
            (⟨r.1, r.2⟩, true)
          else acc

/-- Model of `_guard_hide_state` (lines 679–708): iterate over all node-map
entries (their keys are fixed during the pass; values are re-read fresh
at each step). -/
def guard_hide_state (fuel : Nat) (log : ChangeLog) (s : GState) : GState × Bool :=
  ((s.nm : List (String × Node)).map (·.1)).foldl (guardHideStep fuel log) (s, false)

/-- Loop body of `_guard_solo_state` (lines 710–740) for one node-map
entry. -/
def guardSoloStep (fuel : Nat) (log : ChangeLog) (acc : GState × Bool)
    (name : String) : GState × Bool :=
  match nmLookup acc.1.nm name with
  | none => acc
  | some nd =>
    if nd.children.isEmpty then acc
    else
      let currSolo := nd.is_solo
      let relevantChildren := nd.children.filterMap (fun cid =>
        match nmLookup acc.1.nm cid with
        | none => none
        | some cn =>
          if "HIDE" ∈ cn.active_flags ∧ cn.is_visible = false then none
          else some cn)
      if relevantChildren.isEmpty then acc
      else
        let allChildrenSolo := relevantChildren.all (·.is_solo)
        let noChildrenSolo := !relevantChildren.any (·.is_solo)
        if currSolo && noChildrenSolo then
          let changes := logGet log name
          let justTurnedOn :=
            changes.any (fun c => c.property = "is_solo" && c.toVal = some true)
          if !justTurnedOn then
            let r := cascade_solo_state fuel acc.1.arm acc.1.nm name false
            (⟨r.1, r.2⟩, true)
          else acc
        else if !currSolo && allChildrenSolo then
          let r := cascade_solo_state fuel acc.1.arm acc.1.nm name true
          (⟨r.1, r.2⟩, true)
        else acc

/-- Model of `_guard_solo_state` (lines 710–740). -/
def guard_solo_state (fuel : Nat) (log : ChangeLog) (s : GState) : GState × Bool :=
  ((s.nm : List (String × Node)).map (·.1)).foldl (guardSoloStep fuel log) (s, false)

/-- The re-read step after an acting round (lines 758–762): copy every
external collection's fresh attribute values into the node map. -/
def refreshFromArm (s : GState) : GState :=
  ⟨s.arm,
   (s.arm : List (String × Coll)).foldl (fun nm e =>
     nmModify nm e.1 (fun nd =>
       { nd with is_visible := e.2.is_visible, is_solo := e.2.is_solo })) s.nm⟩

/-- One stabilization round: the hide-coupling guard over all nodes, then
the nesting guard over all nodes; `true` when either guard acted. -/
def roundStep (fuel : Nat) (log : ChangeLog) (s : GState) : GState × Bool :=
  let h := guard_hide_state fuel log s
  let g := guard_solo_state fuel log h.1
  (g.1, h.2 || g.2)

/-- The state an acting round hands to the next round: the round's output
with the node map refreshed from the external tree. -/
def stabNext (fuel : Nat) (log : ChangeLog) (s : GState) : GState :=
  refreshFromArm (roundStep fuel log s).1

/-- The bounded stabilization loop (lines 751–762): run rounds until one
makes no change (returning its output directly, without the re-read) or
the round budget is exhausted. -/
def stabilizeLoop (fuel : Nat) (log : ChangeLog) : Nat → GState → GState
  | 0, s => s
  | n + 1, s =>
    let r := roundStep fuel log s
    if r.2 then stabilizeLoop fuel log n (refreshFromArm r.1) else r.1

/-- Model of `guard_enforcer(arm, old_packet, current_packet)` (lines 742–764):
compute the change log once, then stabilize for at most 10 rounds. -/
def guard_enforcer (fuel : Nat) (arm : ArmMap) (oldPacket : Option ScanSt)
    (currentPacket : ScanSt) : GState :=
  if currentPacket.node_map.isEmpty then ⟨arm, currentPacket.node_map⟩
  else
    let log := run_temporal_comparator oldPacket currentPacket monitoredKeys
    stabilizeLoop fuel log 10 ⟨arm, currentPacket.node_map⟩

/-! ## The reactive tick (`rrug_ui_timer_update`, lines 766–816)

The tick is modelled for one live armature. The pipeline stages are
passed in as `Except`-valued functions so that a Python exception raised
inside a stage (the premise of the error-handling claims; in the host it
can arise from any API call) is representable: `Except.error` at a stage
aborts the tick exactly where the `try` block would, and the surrounding
`except` clause keeps whatever cache mutations already happened. -/

/-- One fingerprint entry: the tuple
`(name, is_visible, is_solo, parent, overflow)`. -/
structure FPEntry where
  name : String
  is_visible : Bool
  is_solo : Bool
  parent : Option String
  overflow : Bool
deriving DecidableEq, Repr

/-- The state snapshot `current_state` (lines 788–797): the monitored
tuple for every name in traversal order. (In Python a name in the
traversal order is always a `node_map` key; the default branch is
unreachable.) -/
def fingerprintOf (scan : ScanSt) : List FPEntry :=
  scan.traversal_order.map (fun name =>
    match nmLookup scan.node_map name with
    | some nd => ⟨name, nd.is_visible, nd.is_solo, nd.parent, nd.overflow⟩
    | none => ⟨name, false, false, none, false⟩)

/-- The two caches of one armature: `_rrug_ui_data_cache[arm_key]` and
`_entrance_gatekeeper_cache[arm_key]`. -/
structure Caches where
  data : Option ScanSt
  gate : Option (List FPEntry)
deriving DecidableEq

/-- How many times each pipeline stage ran during one tick. -/
structure StageCalls where
  scanC : Nat
  parseC : Nat
  stabilizeC : Nat
  prepareC : Nat
deriving DecidableEq, Repr

/-- One polling tick (`rrug_ui_timer_update`, lines 766–816) for one live
armature, with the four pipeline stages injected as fallible functions.
Control flow follows the source: scan, fingerprint, gatekeeper
comparison; on mismatch the gatekeeper cache is updated **first**, then
parse, stabilize and prepare run, and only then is the layout cache
written. An `Except.error` anywhere returns the caches as already
mutated, which is what the `except` clause at the tick boundary does. -/
def rrug_ui_timer_update (scanE : Except Unit ScanSt)
    (parseE : ScanSt → Except Unit ScanSt)
    (stabilizeE : Option ScanSt → ScanSt → Except Unit ScanSt)
    (prepareE : ScanSt → Except Unit ScanSt)
    (caches : Caches) : Caches × StageCalls :=
  match scanE with
  | .error _ => (caches, ⟨1, 0, 0, 0⟩)
  | .ok rawPacket =>
    let currentState := fingerprintOf rawPacket
    if caches.gate = some currentState then (caches, ⟨1, 0, 0, 0⟩)
    else
      let c1 : Caches := { caches with gate := some currentState }
      match parseE rawPacket with
      | .error _ => (c1, ⟨1, 1, 0, 0⟩)
      | .ok parsedPacket =>
        match stabilizeE caches.data parsedPacket with
        | .error _ => (c1, ⟨1, 1, 1, 0⟩)
        | .ok stabilizedPacket =>
          match prepareE stabilizedPacket with
          | .error _ => (c1, ⟨1, 1, 1, 1⟩)
          | .ok finalPacket => ({ c1 with data := some finalPacket }, ⟨1, 1, 1, 1⟩)

/-- A plain node for concrete test trees: default metadata with the given
name and active flags. -/
def testNode (name : String) (flags : List String) : Node :=
  { name := name, parent := none, children := [], is_visible := true,
    is_solo := false, label := name, active_flags := flags, flag_list := [],
    icon_name := none, is_valid := true, ui_layout := [], link_meta := none,
    tree_type := none, overflow := false }

/-- Sibling node map with three consecutive LINK-flagged siblings. -/
def linkExampleMap : NodeMap :=
  [("A", testNode "A" ["LINK"]), ("B", testNode "B" ["LINK"]),
   ("C", testNode "C" ["LINK"])]

/-- A single HIDE-flagged, invisible collection (cascade counterexample). -/
def c5NodeMap : NodeMap :=
  [("A", { testNode "A" ["HIDE"] with is_visible := false })]

/-- The matching external tree: `A` invisible and un-soloed. -/
def c5Arm : ArmMap := [("A", ⟨false, false⟩)]

/-- A one-collection scan result used by the tick witnesses. -/
def tinyScan : ScanSt := run_structure_scanner [.mk "Root" true false []] false

/-- Caches already holding `tinyScan`'s layout and fingerprint. -/
def c4Caches : Caches := ⟨some tinyScan, some (fingerprintOf tinyScan)⟩

/-- The initial error slot of the parse loop: the leftover-text error
when any non-whitespace text survives label and flag removal. -/
def parseInitErr (raw : String) : Option String :=
  if (parseLeftover raw).isEmpty then none
  else some ("SYNTAX ERROR: " ++ String.mk (parseLeftover raw))

/-- The icon value determined by a tuple list, scanned left to right: an
ICON occurrence with a non-empty (normalized) parameter overwrites the
icon — with the parameter itself when the validator accepts it and with
the sentinel `"ERROR"` otherwise; every other tuple leaves it alone. -/
def iconFoldSpec (iconValid : String → Bool) (ts : List (String × String))
    (init : Option String) : Option String :=
  ts.foldl (fun acc t =>
    if t.1 = "ICON" ∧ ¬ (normParamL t.2.data).isEmpty then
      (if iconValid (String.mk (normParamL t.2.data)) then
        some (String.mk (normParamL t.2.data))
      else some "ERROR")
    else acc) init

/-- The raw name of the C9 counterexample: a valid single-quoted ICON
parameter followed by an ICON parameter the validator rejects. -/
def c9Name : String := "(ICON)[" ++ quoteStr ++ "A" ++ quoteStr ++ "](ICON)[B]"

/-- The injected icon validator of the C9 counterexample: accepts exactly
`"A"`. -/
def c9IV : String → Bool := fun s => s = "A"

mutual
/-- All collection names occurring in one external subtree. -/
def namesOfB : BColl → List String
  | .mk raw _ _ children => raw :: namesOfL children

/-- All collection names occurring in a list of external subtrees. -/
def namesOfL : List BColl → List String
  | [] => []
  | b :: rest => namesOfB b ++ namesOfL rest
end

/-- The `tree_type` stored for a name in a node map (`none` when the
name is absent). -/
def ttOfN (nm : NodeMap) (n : String) : Option (Option Ctx) :=
  (nmLookup nm n).map Node.tree_type

/-- The node the scanner records for a root collection before any child
is processed: fresh metadata with the zone decided by the naming-tag
chain on the raw name. -/
def scannedRootNode (raw : String) (vis solo : Bool) : Node :=
  { name := raw, parent := none, children := [], is_visible := vis,
    is_solo := solo, label := raw, active_flags := [], flag_list := [],
    icon_name := none, is_valid := true, ui_layout := [], link_meta := none,
    tree_type := classifyName raw, overflow := false }

/-- The node map of the specification's row-grouping example:
`[A(join), B(join), C, D, E(join), F]`. -/
def rowExampleMap : NodeMap :=
  [("A", testNode "A" ["JOIN"]), ("B", testNode "B" ["JOIN"]),
   ("C", testNode "C" []), ("D", testNode "D" []),
   ("E", testNode "E" ["JOIN"]), ("F", testNode "F" [])]

/-! ## Association-map lemmas -/

theorem nmLookup_cons (e : String × Node) (rest : NodeMap) (k : String) :
    nmLookup (e :: rest) k = if e.1 = k then some e.2 else nmLookup rest k := by
  by_cases h : e.1 = k <;> simp [nmLookup, List.find?, h]

theorem nmLookup_nmSet (nm : NodeMap) (k : String) (v : Node) (k2 : String) :
    nmLookup (nmSet nm k v) k2 = if k2 = k then some v else nmLookup nm k2 := by
  induction nm with
  | nil =>
    simp only [nmSet, nmLookup_cons]
    by_cases h : k2 = k
    · subst h; simp
    · rw [if_neg (fun hh => h hh.symm), if_neg h]
  | cons e rest ih =>
    by_cases he : e.1 = k
    · simp only [nmSet, if_pos he, nmLookup_cons]
      by_cases h2 : k2 = k
      · subst h2; simp [he]
      · rw [if_neg (fun hh => h2 hh.symm), if_neg h2,
            if_neg (fun hh => h2 (he.symm.trans hh).symm)]
    · simp only [nmSet, if_neg he, nmLookup_cons, ih]
      by_cases h2 : k2 = k
      · subst h2
        rw [if_neg (fun hh => he hh), if_pos rfl, if_pos rfl]
      · simp [h2]

theorem armLookup_cons (e : String × Coll) (rest : ArmMap) (k : String) :
    armLookup (e :: rest) k = if e.1 = k then some e.2 else armLookup rest k := by
  by_cases h : e.1 = k <;> simp [armLookup, List.find?, h]

theorem armLookup_armSet (arm : ArmMap) (k : String) (v : Coll) (k2 : String) :
    armLookup (armSet arm k v) k2 = if k2 = k then some v else armLookup arm k2 := by
  induction arm with
  | nil =>
    simp only [armSet, armLookup_cons]
    by_cases h : k2 = k
    · subst h; simp
    · rw [if_neg (fun hh => h hh.symm), if_neg h]
  | cons e rest ih =>
    by_cases he : e.1 = k
    · simp only [armSet, if_pos he, armLookup_cons]
      by_cases h2 : k2 = k
      · subst h2; simp [he]
      · rw [if_neg (fun hh => h2 hh.symm), if_neg h2,
            if_neg (fun hh => h2 (he.symm.trans hh).symm)]
    · simp only [armSet, if_neg he, armLookup_cons, ih]
      by_cases h2 : k2 = k
      · subst h2
        rw [if_neg (fun hh => he hh), if_pos rfl, if_pos rfl]
      · simp [h2]

theorem nmLookup_nmModify (nm : NodeMap) (k : String) (f : Node → Node) (k2 : String) :
    nmLookup (nmModify nm k f) k2 =
      if k2 = k then (nmLookup nm k).map f else nmLookup nm k2 := by
  unfold nmModify
  by_cases h2 : k2 = k
  · cases hk : nmLookup nm k <;> simp [h2, hk, nmLookup_nmSet]
  · cases hk : nmLookup nm k <;> simp [h2, hk, nmLookup_nmSet]

/-! ## Claim C7: row grouping -/

theorem cleanLayoutAux_rowsSpec (nm : NodeMap) (l : List String) :
    ∀ buf : List String,
      cleanLayoutAux nm buf l =
        match rowsSpec nm l with
        | [] => if buf.isEmpty then [] else [buf]
        | r :: rs => (buf ++ r) :: rs := by
  induction l with
  | nil => intro buf; simp [cleanLayoutAux, rowsSpec]
  | cons n rest ih =>
    intro buf
    by_cases hj : "JOIN" ∈ flagsOf nm n
    · simp only [cleanLayoutAux, rowsSpec, hj, if_pos]
      rw [ih (buf ++ [n])]
      cases hr : rowsSpec nm rest with
      | nil => simp
      | cons r rs => simp
    · simp only [cleanLayoutAux, rowsSpec, hj, if_neg, ite_false]
      rw [ih []]
      cases hr : rowsSpec nm rest with
      | nil => simp
      | cons r rs => simp

/-- C7: for every ordered list of eligible sibling ids, the row grouping
computed by `_helper_generate_clean_layout` is exactly the partition that
closes a row at each node lacking the JOIN flag (with a non-empty
trailing buffer closed at the end), here written as the direct recursion
`rowsSpec`; and on the example `[A(join),B(join),C,D,E(join),F]` it
yields the rows `[[A,B,C],[D],[E,F]]`. -/
theorem c7_row_grouping :
    (∀ (node_names : List String) (nm : NodeMap),
        helper_generate_clean_layout node_names nm = rowsSpec nm node_names) ∧
      helper_generate_clean_layout ["A", "B", "C", "D", "E", "F"] rowExampleMap =
        [["A", "B", "C"], ["D"], ["E", "F"]] := by
  constructor
  · intro node_names nm
    unfold helper_generate_clean_layout
    rw [cleanLayoutAux_rowsSpec]
    cases hr : rowsSpec nm node_names <;> simp
  · decide

/-! ## Claim C1: link resolution -/

/-- C1 counterexample: on three consecutive LINK-flagged siblings
`[A, B, C]`, `_helper_resolve_links` does **not** form exactly one pair.
The index advances by one even after a pair is formed, so `B` is
re-examined: `A` links to `B`, `B`'s link is overwritten to point to `C`,
and `C` is linked back to `B`. The third sibling is not left unlinked and
`A`'s partner `B` does not point back to `A` (symmetry broken). -/
theorem c1_link_overlap_cex :
    (nmLookup (helper_resolve_links ["A", "B", "C"] linkExampleMap) "A").map Node.link_meta
        = some (some ⟨"B", true⟩) ∧
    (nmLookup (helper_resolve_links ["A", "B", "C"] linkExampleMap) "B").map Node.link_meta
        = some (some ⟨"C", true⟩) ∧
    (nmLookup (helper_resolve_links ["A", "B", "C"] linkExampleMap) "C").map Node.link_meta
        = some (some ⟨"B", false⟩) ∧
    ¬ ((nmLookup (helper_resolve_links ["A", "B", "C"] linkExampleMap) "C").map Node.link_meta
        = some none) ∧
    ¬ ((nmLookup (helper_resolve_links ["A", "B", "C"] linkExampleMap) "B").map Node.link_meta
        = some (some ⟨"A", false⟩)) := by
  decide

/-- C1 (amended): link resolution is greedy left-to-right but
re-entrant — the scan continues with the node **right after** the current
one, including the just-linked partner. For three consecutive
LINK-flagged siblings `a, b, c` (distinct, all present), two overlapping
pairs are formed: `a` links to `b` as source, `b`'s link is overwritten
to point to `c` as source, and `c` points back to `b`; the back-link
symmetry invariant holds for the final `b`–`c` pair only. -/
theorem c1_link_resolution_amended (nm : NodeMap) (a b c : String)
    (na nb nc : Node) (hab : a ≠ b) (hac : a ≠ c) (hbc : b ≠ c)
    (ha : nmLookup nm a = some na) (hb : nmLookup nm b = some nb)
    (hc : nmLookup nm c = some nc)
    (la : "LINK" ∈ na.active_flags) (lb : "LINK" ∈ nb.active_flags)
    (lc : "LINK" ∈ nc.active_flags) :
    nmLookup (helper_resolve_links [a, b, c] nm) a
        = some { na with link_meta := some ⟨b, true⟩ } ∧
    nmLookup (helper_resolve_links [a, b, c] nm) b
        = some { nb with link_meta := some ⟨c, true⟩ } ∧
    nmLookup (helper_resolve_links [a, b, c] nm) c
        = some { nc with link_meta := some ⟨b, false⟩ } := by
  have hba : b ≠ a := Ne.symm hab
  have hca : c ≠ a := Ne.symm hac
  have hcb : c ≠ b := Ne.symm hbc
  refine ⟨?_, ?_, ?_⟩ <;>
    simp [helper_resolve_links, ha, hb, hc, la, lb, lc, nmLookup_nmSet,
          hab, hac, hbc, hba, hca, hcb]

/-- C1 witness: the amended theorem at the concrete three-sibling map. -/
theorem c1_link_resolution_amended_witness :
    nmLookup (helper_resolve_links ["A", "B", "C"] linkExampleMap) "A"
        = some { testNode "A" ["LINK"] with link_meta := some ⟨"B", true⟩ } ∧
    nmLookup (helper_resolve_links ["A", "B", "C"] linkExampleMap) "B"
        = some { testNode "B" ["LINK"] with link_meta := some ⟨"C", true⟩ } ∧
    nmLookup (helper_resolve_links ["A", "B", "C"] linkExampleMap) "C"
        = some { testNode "C" ["LINK"] with link_meta := some ⟨"B", false⟩ } :=
  c1_link_resolution_amended linkExampleMap "A" "B" "C" _ _ _
    (by decide) (by decide) (by decide) (by decide) (by decide) (by decide)
    (by decide) (by decide) (by decide)

/-! ## Claim C5: cascading a solo state -/

/-- Updating `is_solo` in the node map leaves every node's flags alone. -/
theorem flagsOf_nmModify_solo (nm : NodeMap) (k : String) (b : Bool) (x : String) :
    flagsOf (nmModify nm k (fun nd => { nd with is_solo := b })) x = flagsOf nm x := by
  unfold flagsOf
  rw [nmLookup_nmModify]
  by_cases hx : x = k
  · rw [if_pos hx, hx]
    cases nmLookup nm k <;> rfl
  · rw [if_neg hx]

/-- Flags are untouched by one cascade write-back step. -/
theorem flagsOf_cascadeSoloStep (v : Bool) (arm : ArmMap) (nm : NodeMap)
    (n0 x : String) :
    flagsOf (cascadeSoloStep v (arm, nm) n0).2 x = flagsOf nm x := by
  unfold cascadeSoloStep
  cases h : armLookup arm n0 with
  | none => rfl
  | some c => exact flagsOf_nmModify_solo nm n0 _ x

/-- What one cascade step does to the external tree: the collection named
`n0` (when present) gets the expected solo value, everything else is
untouched. -/
theorem cascadeSoloStep_armLookup (v : Bool) (arm : ArmMap) (nm : NodeMap)
    (n0 x : String) :
    armLookup (cascadeSoloStep v (arm, nm) n0).1 x =
      if x = n0 then
        (armLookup arm x).map (fun c => ⟨c.is_visible, expectedCascadeSolo v nm c n0⟩)
      else armLookup arm x := by
  unfold cascadeSoloStep
  cases h : armLookup arm n0 with
  | none =>
    by_cases hx : x = n0
    · subst hx; simp [h]
    · simp [hx]
  | some c =>
    simp only [h]
    by_cases hw : c.is_solo = expectedCascadeSolo v nm c n0
    · rw [if_neg (by simp [hw])]
      by_cases hx : x = n0
      · subst hx
        rw [if_pos rfl, h, Option.map_some']
        cases c
        simp_all [expectedCascadeSolo]
      · rw [if_neg hx]
    · rw [if_pos hw]
      rw [armLookup_armSet]
      by_cases hx : x = n0
      · subst hx
        rw [if_pos rfl, if_pos rfl, h, Option.map_some']
      · rw [if_neg hx, if_neg hx]

/-- The cascade fold, fully characterized on the external tree. -/
theorem cascadeFold_armLookup (v : Bool) (L : List String) :
    ∀ (arm : ArmMap) (nm : NodeMap) (x : String),
      armLookup (L.foldl (cascadeSoloStep v) (arm, nm)).1 x =
        if x ∈ L then
          (armLookup arm x).map (fun c => ⟨c.is_visible, expectedCascadeSolo v nm c x⟩)
        else armLookup arm x := by
  induction L with
  | nil => intro arm nm x; simp
  | cons n0 rest ih =>
    intro arm nm x
    rw [List.foldl_cons]
    have hs : cascadeSoloStep v (arm, nm) n0 =
        ((cascadeSoloStep v (arm, nm) n0).1, (cascadeSoloStep v (arm, nm) n0).2) := rfl
    rw [hs, ih]
    have hexp : ∀ (c : Coll) (y : String),
        expectedCascadeSolo v (cascadeSoloStep v (arm, nm) n0).2 c y =
          expectedCascadeSolo v nm c y := by
      intro c y
      unfold expectedCascadeSolo
      rw [flagsOf_cascadeSoloStep]
    simp only [hexp, cascadeSoloStep_armLookup]
    by_cases hx : x ∈ rest
    · rw [if_pos hx, if_pos (List.mem_cons_of_mem n0 hx)]
      by_cases hx0 : x = n0
      · subst hx0
        rw [if_pos rfl]
        cases hc : armLookup arm x with
        | none => rfl
        | some c =>
          rw [Option.map_some', Option.map_some']
          cases c
          simp [expectedCascadeSolo]
      · rw [if_neg hx0]
    · by_cases hx0 : x = n0
      · subst hx0
        rw [if_neg hx, if_pos rfl, if_pos (List.mem_cons_self x rest)]
      · rw [if_neg hx, if_neg hx0,
           if_neg (by simp [List.mem_cons, hx, hx0])]

/-- C5 counterexample: soloing a node that itself carries the HIDE flag
while invisible does **not** apply `v = true` to the node: the start node
is subject to the same forced-`false` exception as descendants, so its
solo state ends up `false`. -/
theorem c5_cascade_start_node_cex :
    (armLookup (cascade_solo_state 9 c5Arm c5NodeMap "A" true).1 "A").map Coll.is_solo
        = some false ∧
    ¬ ((armLookup (cascade_solo_state 9 c5Arm c5NodeMap "A" true).1 "A").map Coll.is_solo
        = some true) := by
  decide

/-- C5 (amended): cascading solo value `v` from `start` writes, for every
member of the toggle set (the start node **and** its computed
descendants, the start node included in the exception), the value `v` —
except that when `v = true` a member carrying the HIDE flag that is
currently invisible is forced to `false`; collections outside the toggle
set are untouched. In particular a parent with descendants none of which
is hide-gated-and-invisible gets all of them soloed, and a hide-gated
invisible descendant stays un-soloed while its siblings are soloed. -/
theorem c5_cascade_amended (fuel : Nat) (arm : ArmMap) (nm : NodeMap)
    (start : String) (v : Bool) (c0 : Coll)
    (hstart : armLookup arm start = some c0) :
    (∀ x, x ∈ start :: get_descendant_names fuel nm start →
      armLookup (cascade_solo_state fuel arm nm start v).1 x =
        (armLookup arm x).map (fun c => ⟨c.is_visible, expectedCascadeSolo v nm c x⟩)) ∧
    (∀ x, x ∉ start :: get_descendant_names fuel nm start →
      armLookup (cascade_solo_state fuel arm nm start v).1 x = armLookup arm x) := by
  unfold cascade_solo_state
  rw [hstart]
  constructor
  · intro x hx
    rw [cascadeFold_armLookup, if_pos hx]
  · intro x hx
    rw [cascadeFold_armLookup, if_neg hx]

/-- C5 witness: the amended theorem on the concrete one-node map, showing
the start node forced to `false`. -/
theorem c5_cascade_amended_witness :
    armLookup (cascade_solo_state 9 c5Arm c5NodeMap "A" true).1 "A" =
      (armLookup c5Arm "A").map
        (fun c => ⟨c.is_visible, expectedCascadeSolo true c5NodeMap c "A"⟩) :=
  (c5_cascade_amended 9 c5Arm c5NodeMap "A" true ⟨false, false⟩ (by decide)).1
    "A" (by decide)

/-! ## Claim C6: the stabilization loop -/

/-- The bounded stabilization loop, characterized for any round budget
`N`: some `k ≤ N` rounds act; if `k = N` the loop stops at the budget
with the last refresh applied, otherwise round `k` is the first making no
change and its output is returned directly. -/
theorem stabilizeLoop_spec (fuel : Nat) (log : ChangeLog) (N : Nat) :
    ∀ s : GState, ∃ k, k ≤ N ∧
      (∀ j, j < k → (roundStep fuel log ((stabNext fuel log)^[j] s)).2 = true) ∧
      ((k = N ∧ stabilizeLoop fuel log N s = (stabNext fuel log)^[N] s) ∨
       (k < N ∧ (roundStep fuel log ((stabNext fuel log)^[k] s)).2 = false ∧
        stabilizeLoop fuel log N s = (roundStep fuel log ((stabNext fuel log)^[k] s)).1)) := by
  induction N with
  | zero =>
    intro s
    exact ⟨0, Nat.le_refl 0, fun j hj => absurd hj (Nat.not_lt_zero j),
      Or.inl ⟨rfl, rfl⟩⟩
  | succ n ih =>
    intro s
    by_cases hact : (roundStep fuel log s).2 = true
    · obtain ⟨k, hk, hall, hres⟩ := ih (stabNext fuel log s)
      have hloop : stabilizeLoop fuel log (n + 1) s =
          stabilizeLoop fuel log n (stabNext fuel log s) := by
        simp only [stabilizeLoop, stabNext, hact, if_true]
      refine ⟨k + 1, Nat.succ_le_succ hk, ?_, ?_⟩
      · intro j hj
        cases j with
        | zero => simpa using hact
        | succ j' =>
          rw [Function.iterate_succ_apply]
          exact hall j' (Nat.lt_of_succ_lt_succ hj)
      · rcases hres with ⟨hkN, he⟩ | ⟨hkN, hround, he⟩
        · left
          refine ⟨by omega, ?_⟩
          rw [hloop, he, ← Function.iterate_succ_apply]
        · right
          refine ⟨by omega, ?_, ?_⟩
          · rw [Function.iterate_succ_apply]
            exact hround
          · rw [hloop, he, Function.iterate_succ_apply]
    · rw [Bool.not_eq_true] at hact
      refine ⟨0, Nat.zero_le _, fun j hj => absurd hj (Nat.not_lt_zero j),
        Or.inr ⟨Nat.succ_pos n, ?_, ?_⟩⟩
      · simpa using hact
      · simp only [stabilizeLoop, hact, Bool.false_eq_true, if_false,
          Function.iterate_zero_apply]

/-- C6: the stabilization loop always halts within the fixed cap of 10
rounds (the budget `guard_enforcer` passes at line 751): some `k ≤ 10`
rounds act, each round being the hide-coupling guard over all nodes
followed by the nesting guard over all nodes (`roundStep`); the loop
stops early at the first round in which neither guard made a change
(returning that round's output), and reaching the cap without
convergence is not an error — the state after the tenth round is kept
as-is. -/
theorem c6_stabilization_halts (fuel : Nat) (log : ChangeLog) (s : GState) :
    ∃ k, k ≤ 10 ∧
      (∀ j, j < k → (roundStep fuel log ((stabNext fuel log)^[j] s)).2 = true) ∧
      ((k = 10 ∧ stabilizeLoop fuel log 10 s = (stabNext fuel log)^[10] s) ∨
       (k < 10 ∧ (roundStep fuel log ((stabNext fuel log)^[k] s)).2 = false ∧
        stabilizeLoop fuel log 10 s = (roundStep fuel log ((stabNext fuel log)^[k] s)).1)) :=
  stabilizeLoop_spec fuel log 10 s

/-! ## Claim C2: exceptions at the tick boundary -/

/-- C2 counterexample: a tick whose stabilize stage raises (after a
fingerprint mismatch) is **not** a complete no-op on cached state: the
previously cached layout does remain (here `none`), but the fingerprint
store has already been overwritten with the new fingerprint before the
failing stage ran. -/
theorem c2_failed_tick_cex :
    (rrug_ui_timer_update (Except.ok tinyScan)
        (fun s => Except.ok (run_data_parsing (fun _ => false) s))
        (fun _ _ => Except.error ()) (fun s => Except.ok s)
        ⟨none, none⟩).1.gate = some (fingerprintOf tinyScan) ∧
    ¬ ((rrug_ui_timer_update (Except.ok tinyScan)
        (fun s => Except.ok (run_data_parsing (fun _ => false) s))
        (fun _ _ => Except.error ()) (fun s => Except.ok s)
        ⟨none, none⟩).1.gate = (⟨none, none⟩ : Caches).gate) ∧
    (rrug_ui_timer_update (Except.ok tinyScan)
        (fun s => Except.ok (run_data_parsing (fun _ => false) s))
        (fun _ _ => Except.error ()) (fun s => Except.ok s)
        ⟨none, none⟩).1.data = none := by
  decide

/-- C2 (amended): an exception in any pipeline stage is caught at the
tick boundary and the **layout cache** is left unmodified, so the
previously cached layout remains authoritative; but the tick is not a
complete no-op on cached state: when the failure happens in parse,
stabilize or compile (i.e. after the fingerprint comparison), the
fingerprint store has already been overwritten with the new fingerprint.
Only a failure in the scan stage leaves both stores untouched. -/
theorem c2_failed_tick_amended
    (parseE : ScanSt → Except Unit ScanSt)
    (stabilizeE : Option ScanSt → ScanSt → Except Unit ScanSt)
    (prepareE : ScanSt → Except Unit ScanSt)
    (caches : Caches) (raw : ScanSt)
    (hgate : ¬ caches.gate = some (fingerprintOf raw)) :
    (∀ c2 : Caches,
      rrug_ui_timer_update (Except.error ()) parseE stabilizeE prepareE c2 =
        (c2, ⟨1, 0, 0, 0⟩)) ∧
    (parseE raw = Except.error () →
      rrug_ui_timer_update (Except.ok raw) parseE stabilizeE prepareE caches =
        ({ caches with gate := some (fingerprintOf raw) }, ⟨1, 1, 0, 0⟩)) ∧
    (∀ p, parseE raw = Except.ok p → stabilizeE caches.data p = Except.error () →
      rrug_ui_timer_update (Except.ok raw) parseE stabilizeE prepareE caches =
        ({ caches with gate := some (fingerprintOf raw) }, ⟨1, 1, 1, 0⟩)) ∧
    (∀ p q, parseE raw = Except.ok p → stabilizeE caches.data p = Except.ok q →
      prepareE q = Except.error () →
      rrug_ui_timer_update (Except.ok raw) parseE stabilizeE prepareE caches =
        ({ caches with gate := some (fingerprintOf raw) }, ⟨1, 1, 1, 1⟩)) := by
  refine ⟨fun c2 => rfl, ?_, ?_, ?_⟩
  · intro hp
    simp [rrug_ui_timer_update, hgate, hp]
  · intro p hp hs
    simp [rrug_ui_timer_update, hgate, hp, hs]
  · intro p q hp hs hq
    simp [rrug_ui_timer_update, hgate, hp, hs, hq]

/-- C2 witness: the amended theorem at a concrete failing stabilize
stage. -/
theorem c2_failed_tick_amended_witness :
    rrug_ui_timer_update (Except.ok tinyScan)
        (fun s => Except.ok (run_data_parsing (fun _ => false) s))
        (fun _ _ => Except.error ()) (fun s => Except.ok s) ⟨none, none⟩ =
      ({ (⟨none, none⟩ : Caches) with gate := some (fingerprintOf tinyScan) },
        ⟨1, 1, 1, 0⟩) :=
  (c2_failed_tick_amended
      (fun s => Except.ok (run_data_parsing (fun _ => false) s))
      (fun _ _ => Except.error ()) (fun s => Except.ok s)
      ⟨none, none⟩ tinyScan (by decide)).2.2.1
    (run_data_parsing (fun _ => false) tinyScan) rfl rfl

/-! ## Claim C4: the fingerprint gate -/

/-- C4 counterexample: on a tick whose fingerprint matches the stored
one, the scan stage **is** re-executed — `run_structure_scanner` runs
unconditionally before the gatekeeper comparison, because the
fingerprint is computed from the fresh scan itself. The claim that none
of scan/parse/stabilize/compile run is therefore false: the scan counter
is 1, not 0 (parse, stabilize and compile are indeed skipped and the
caches are returned unchanged). -/
theorem c4_scan_always_runs_cex :
    (rrug_ui_timer_update (Except.ok tinyScan) (fun s => Except.ok s)
        (fun _ p => Except.ok p) (fun s => Except.ok s) c4Caches).2.scanC = 1 ∧
    ¬ ((rrug_ui_timer_update (Except.ok tinyScan) (fun s => Except.ok s)
        (fun _ p => Except.ok p) (fun s => Except.ok s) c4Caches).2.scanC = 0) ∧
    (rrug_ui_timer_update (Except.ok tinyScan) (fun s => Except.ok s)
        (fun _ p => Except.ok p) (fun s => Except.ok s) c4Caches).1 = c4Caches := by
  decide

/-- C4 (amended): on every tick where the freshly computed fingerprint
equals the stored one, both caches are returned unchanged (so the
previously stored layout stays authoritative) and the parse, stabilize
and compile stages are not executed; the scan stage, however, runs
exactly once per tick — the fingerprint is derived from it. -/
theorem c4_fingerprint_match_amended
    (parseE : ScanSt → Except Unit ScanSt)
    (stabilizeE : Option ScanSt → ScanSt → Except Unit ScanSt)
    (prepareE : ScanSt → Except Unit ScanSt)
    (caches : Caches) (raw : ScanSt)
    (hgate : caches.gate = some (fingerprintOf raw)) :
    rrug_ui_timer_update (Except.ok raw) parseE stabilizeE prepareE caches =
      (caches, ⟨1, 0, 0, 0⟩) := by
  simp [rrug_ui_timer_update, hgate]

/-- C4 witness: the amended theorem at the concrete matching caches. -/
theorem c4_fingerprint_match_amended_witness :
    rrug_ui_timer_update (Except.ok tinyScan) (fun s => Except.ok s)
        (fun _ p => Except.ok p) (fun s => Except.ok s) c4Caches =
      (c4Caches, ⟨1, 0, 0, 0⟩) :=
  c4_fingerprint_match_amended (fun s => Except.ok s) (fun _ p => Except.ok p)
    (fun s => Except.ok s) c4Caches tinyScan (by decide)

/-! ## Lemmas about the flag-processing loop -/

theorem tupleCheckR_fst (rules : FlagRule) (iv : String → Bool) (f p : String)
    (icon0 : Option String) :
    (tupleCheckR rules iv f p icon0).1 = (tupleCheckR rules iv f p none).1 := by
  obtain ⟨ps, hv⟩ := rules
  cases ps <;> simp only [tupleCheckR] <;> split_ifs <;> rfl

theorem procTuple_err (iv : String → Bool) (st : PState) (t : String × String) :
    (procTuple iv st t).err =
      match tupleMsgT iv t with
      | some m => some m
      | none => st.err := by
  cases hcfg : flagConfig (String.mk (pyStrip t.1.data)) with
  | none => simp only [procTuple, tupleMsgT, hcfg]
  | some rules =>
    simp only [procTuple, tupleMsgT, hcfg]
    rw [tupleCheckR_fst rules iv (String.mk (pyStrip t.1.data))
          (String.mk (normParamL t.2.data)) st.icon]
    cases (tupleCheckR rules iv (String.mk (pyStrip t.1.data))
        (String.mk (normParamL t.2.data)) none).1 <;> rfl

theorem procTuple_valid (iv : String → Bool) (st : PState) (t : String × String) :
    (procTuple iv st t).valid = (st.valid && (tupleMsgT iv t).isNone) := by
  cases hcfg : flagConfig (String.mk (pyStrip t.1.data)) with
  | none => simp only [procTuple, tupleMsgT, hcfg, Option.isNone_none, Bool.and_true]
  | some rules =>
    simp only [procTuple, tupleMsgT, hcfg]
    rw [tupleCheckR_fst rules iv (String.mk (pyStrip t.1.data))
          (String.mk (normParamL t.2.data)) st.icon]
    cases (tupleCheckR rules iv (String.mk (pyStrip t.1.data))
        (String.mk (normParamL t.2.data)) none).1 <;> simp

theorem procTuple_active (iv : String → Bool) (st : PState) (t : String × String)
    (rules : FlagRule)
    (hcfg : flagConfig (String.mk (pyStrip t.1.data)) = some rules) :
    (procTuple iv st t).active =
      if String.mk (pyStrip t.1.data) ∈ st.active then st.active
      else st.active ++ [String.mk (pyStrip t.1.data)] := by
  simp only [procTuple, hcfg]
  cases (tupleCheckR rules iv (String.mk (pyStrip t.1.data))
      (String.mk (normParamL t.2.data)) st.icon).1 <;> rfl

theorem procTuple_flags (iv : String → Bool) (st : PState) (t : String × String)
    (rules : FlagRule)
    (hcfg : flagConfig (String.mk (pyStrip t.1.data)) = some rules) :
    (procTuple iv st t).flags =
      st.flags ++ [(String.mk (pyStrip t.1.data), String.mk (normParamL t.2.data))] := by
  simp only [procTuple, hcfg]
  cases (tupleCheckR rules iv (String.mk (pyStrip t.1.data))
      (String.mk (normParamL t.2.data)) st.icon).1 <;> rfl

set_option maxHeartbeats 1000000 in
theorem flagConfig_validator (f : String) (rules : FlagRule)
    (hcfg : flagConfig f = some rules) (hne : f ≠ "ICON") :
    rules.hasValidator = false := by
  unfold flagConfig at hcfg
  by_cases h1 : f = "INLINE"
  · rw [if_pos h1] at hcfg
    injection hcfg with hval
    rw [← hval]
  rw [if_neg h1] at hcfg
  by_cases h2 : f = "LINK"
  · rw [if_pos h2] at hcfg
    injection hcfg with hval
    rw [← hval]
  rw [if_neg h2] at hcfg
  by_cases h3 : f = "ICON"
  · exact absurd h3 hne
  rw [if_neg h3] at hcfg
  by_cases h4 : f = "JOIN"
  · rw [if_pos h4] at hcfg
    injection hcfg with hval
    rw [← hval]
  rw [if_neg h4] at hcfg
  by_cases h5 : f = "HIDE"
  · rw [if_pos h5] at hcfg
    injection hcfg with hval
    rw [← hval]
  rw [if_neg h5] at hcfg
  by_cases h6 : f = "TO"
  · rw [if_pos h6] at hcfg
    injection hcfg with hval
    rw [← hval]
  rw [if_neg h6] at hcfg
  by_cases h7 : f = "SKIP"
  · rw [if_pos h7] at hcfg
    injection hcfg with hval
    rw [← hval]
  rw [if_neg h7] at hcfg
  by_cases h8 : f = "FILTER"
  · rw [if_pos h8] at hcfg
    injection hcfg with hval
    rw [← hval]
  rw [if_neg h8] at hcfg
  by_cases h9 : f = "DISPLAYS"
  · rw [if_pos h9] at hcfg
    injection hcfg with hval
    rw [← hval]
  rw [if_neg h9] at hcfg
  by_cases h10 : f = "SETTINGS"
  · rw [if_pos h10] at hcfg
    injection hcfg with hval
    rw [← hval]
  rw [if_neg h10] at hcfg
  by_cases h11 : f = "SNAPS"
  · rw [if_pos h11] at hcfg
    injection hcfg with hval
    rw [← hval]
  rw [if_neg h11] at hcfg
  by_cases h12 : f = "INTERNALS"
  · rw [if_pos h12] at hcfg
    injection hcfg with hval
    rw [← hval]
  rw [if_neg h12] at hcfg
  by_cases h13 : f = "BOARD"
  · rw [if_pos h13] at hcfg
    injection hcfg with hval
    rw [← hval]
  rw [if_neg h13] at hcfg
  exact Option.noConfusion hcfg

theorem procTuple_icon_other (iv : String → Bool) (st : PState)
    (t : String × String) (hne : String.mk (pyStrip t.1.data) ≠ "ICON") :
    (procTuple iv st t).icon = st.icon := by
  cases hcfg : flagConfig (String.mk (pyStrip t.1.data)) with
  | none => simp only [procTuple, hcfg]
  | some rules =>
    have hv : rules.hasValidator = false :=
      flagConfig_validator (String.mk (pyStrip t.1.data)) rules hcfg hne
    have hr2 : (tupleCheckR rules iv (String.mk (pyStrip t.1.data))
        (String.mk (normParamL t.2.data)) st.icon).2 = st.icon := by
      simp only [tupleCheckR, hv]
      simp only [Bool.false_eq_true, and_false, if_false]
    simp only [procTuple, hcfg]
    cases (tupleCheckR rules iv (String.mk (pyStrip t.1.data))
        (String.mk (normParamL t.2.data)) st.icon).1 with
    | none =>
      simp only [if_neg hne]
      exact hr2
    | some m => exact hr2

theorem procTuple_icon_ICON (iv : String → Bool) (st : PState)
    (t : String × String) (hicon : String.mk (pyStrip t.1.data) = "ICON") :
    (procTuple iv st t).icon =
      if (normParamL t.2.data).isEmpty then st.icon
      else if iv (String.mk (normParamL t.2.data)) then
        some (String.mk (normParamL t.2.data))
      else some "ERROR" := by
  have hI : flagConfig "ICON" = some ⟨ParamSpec.dynamicP, true⟩ := by decide
  cases hp : (normParamL t.2.data).isEmpty with
  | true =>
    have hnil : normParamL t.2.data = [] := by
      cases hl : normParamL t.2.data with
      | nil => rfl
      | cons a l => rw [hl] at hp; simp [List.isEmpty] at hp
    have hp2 : String.mk (normParamL t.2.data) = "" := by rw [hnil]
    simp only [procTuple, hicon, hI, tupleCheckR, hp2, if_true]
    simp
  | false =>
    have hp2 : ¬ String.mk (normParamL t.2.data) = "" := by
      intro hcontra
      have hnil : normParamL t.2.data = [] := congrArg String.data hcontra
      rw [hnil] at hp
      simp [List.isEmpty] at hp
    cases hiv : iv (String.mk (normParamL t.2.data)) with
    | true =>
      simp only [procTuple, hicon, hI, tupleCheckR, hp2, hiv, if_false, if_true]
      simp
    | false =>
      simp only [procTuple, hicon, hI, tupleCheckR, hp2, hiv]
      simp

theorem matchKey_mem (ks : List String) :
    ∀ (cs : List Char) (k : String) (rest : List Char),
      matchKey ks cs = some (k, rest) → k ∈ ks := by
  induction ks with
  | nil => intro cs k rest h; simp [matchKey] at h
  | cons k0 ks ih =>
    intro cs k rest h
    unfold matchKey at h
    by_cases hl : leadsWith (k0.data ++ [')']) cs = true
    · rw [if_pos hl] at h
      have hk : k0 = k := congrArg (·.1) (Option.some.inj h)
      rw [← hk]
      exact List.mem_cons_self k0 ks
    · rw [if_neg hl] at h
      exact List.mem_cons_of_mem k0 (ih cs k rest h)

theorem flagScanF_keys (fuel : Nat) :
    ∀ (s : List Char) (t : String × String),
      t ∈ (flagScanF fuel s).1 → t.1 ∈ flagKeys := by
  induction fuel with
  | zero =>
    intro s t ht
    cases s <;> simp [flagScanF] at ht
  | succ n ih =>
    intro s t ht
    cases s with
    | nil => simp [flagScanF] at ht
    | cons c cs =>
      simp only [flagScanF] at ht
      split at ht
      · split at ht
        next k after hm =>
          split at ht
          next inner after2 hb =>
            rcases List.mem_cons.mp ht with h1 | h2
            · rw [h1]
              exact matchKey_mem flagKeys cs k after hm
            · exact ih after2 t h2
          next hb =>
            rcases List.mem_cons.mp ht with h1 | h2
            · rw [h1]
              exact matchKey_mem flagKeys cs k after hm
            · exact ih after t h2
        next hm =>
          exact ih cs t ht
      · exact ih cs t ht

theorem parseTuples_wf (raw : String) :
    ∀ t ∈ parseTuples raw,
      String.mk (pyStrip t.1.data) = t.1 ∧ (flagConfig t.1).isSome := by
  intro t ht
  have hk : t.1 ∈ flagKeys := flagScanF_keys _ _ t ht
  have hall : ∀ k ∈ flagKeys,
      String.mk (pyStrip k.data) = k ∧ (flagConfig k).isSome := by decide
  exact hall t.1 hk

theorem lastWins_cons (init m : Option String) (ms : List (Option String)) :
    lastWins init (m :: ms) =
      lastWins (match m with | some x => some x | none => init) ms := rfl

theorem lastWins_isSome_init (msgs : List (Option String)) :
    ∀ init : Option String, init.isSome → (lastWins init msgs).isSome := by
  induction msgs with
  | nil => intro init h; exact h
  | cons m rest ih =>
    intro init h
    cases m with
    | none => exact ih init h
    | some x => exact ih (some x) rfl

theorem lastWins_isSome (msgs : List (Option String)) (m : Option String)
    (hm : m ∈ msgs) (hsome : m.isSome) :
    ∀ init : Option String, (lastWins init msgs).isSome := by
  induction msgs with
  | nil => exact absurd hm (List.not_mem_nil m)
  | cons m0 rest ih =>
    intro init
    rcases List.mem_cons.mp hm with h1 | h2
    · rw [← h1]
      obtain ⟨x, hx⟩ := Option.isSome_iff_exists.mp hsome
      rw [hx]
      exact lastWins_isSome_init rest (some x) rfl
    · cases m0 with
      | none => exact ih h2 init
      | some x => exact ih h2 (some x)

theorem lastWins_all_none (msgs : List (Option String))
    (h : msgs.all Option.isNone) : ∀ init, lastWins init msgs = init := by
  induction msgs with
  | nil => intro init; rfl
  | cons m rest ih =>
    intro init
    rw [List.all_cons] at h
    obtain ⟨h1, h2⟩ := Bool.and_eq_true_iff.mp h
    cases m with
    | none => exact ih h2 init
    | some x => simp at h1

theorem foldl_procTuple_err (iv : String → Bool) (ts : List (String × String)) :
    ∀ st : PState, (ts.foldl (procTuple iv) st).err =
      lastWins st.err (ts.map (tupleMsgT iv)) := by
  induction ts with
  | nil => intro st; rfl
  | cons t rest ih =>
    intro st
    rw [List.foldl_cons, List.map_cons, lastWins_cons, ih, procTuple_err]

theorem foldl_procTuple_valid (iv : String → Bool) (ts : List (String × String)) :
    ∀ st : PState, (ts.foldl (procTuple iv) st).valid =
      (st.valid && ((ts.map (tupleMsgT iv)).all Option.isNone)) := by
  induction ts with
  | nil => intro st; simp
  | cons t rest ih =>
    intro st
    rw [List.foldl_cons, ih, procTuple_valid, List.map_cons, List.all_cons,
        Bool.and_assoc]

theorem foldl_procTuple_active (iv : String → Bool) (ts : List (String × String))
    (hts : ∀ t ∈ ts, String.mk (pyStrip t.1.data) = t.1 ∧ (flagConfig t.1).isSome) :
    ∀ (st : PState) (f : String),
      f ∈ (ts.foldl (procTuple iv) st).active ↔
        f ∈ st.active ∨ ∃ p, (f, p) ∈ ts := by
  induction ts with
  | nil => intro st f; simp
  | cons t rest ih =>
    intro st f
    obtain ⟨hstrip, hcfg⟩ := hts t (List.mem_cons_self t rest)
    obtain ⟨rules, hrules⟩ := Option.isSome_iff_exists.mp hcfg
    have hact := procTuple_active iv st t rules (by rw [hstrip]; exact hrules)
    rw [List.foldl_cons, ih (fun t' ht' => hts t' (List.mem_cons_of_mem t ht')) _ f,
        hact, hstrip]
    have hA : (f ∈ if t.1 ∈ st.active then st.active else st.active ++ [t.1]) ↔
        (f ∈ st.active ∨ f = t.1) := by
      by_cases hin : t.1 ∈ st.active
      · rw [if_pos hin]
        exact ⟨Or.inl, fun h => h.elim id (fun e => e ▸ hin)⟩
      · rw [if_neg hin]
        simp [List.mem_append]
    rw [hA]
    constructor
    · rintro ((hst | heq) | ⟨p, hp⟩)
      · exact Or.inl hst
      · refine Or.inr ⟨t.2, ?_⟩
        have ht2 : (f, t.2) = t := by
          obtain ⟨t1, t2⟩ := t
          simp only [Prod.mk.injEq]
          exact ⟨heq, trivial⟩
        rw [ht2]
        exact List.mem_cons_self t rest
      · exact Or.inr ⟨p, List.mem_cons_of_mem t hp⟩
    · rintro (hst | ⟨p, hp⟩)
      · exact Or.inl (Or.inl hst)
      · rcases List.mem_cons.mp hp with h1 | h2
        · exact Or.inl (Or.inr (congrArg Prod.fst h1))
        · exact Or.inr ⟨p, h2⟩

theorem foldl_procTuple_flags (iv : String → Bool) (ts : List (String × String))
    (hts : ∀ t ∈ ts, String.mk (pyStrip t.1.data) = t.1 ∧ (flagConfig t.1).isSome) :
    ∀ st : PState, (ts.foldl (procTuple iv) st).flags =
      st.flags ++ ts.map (fun t => (t.1, String.mk (normParamL t.2.data))) := by
  induction ts with
  | nil => intro st; simp
  | cons t rest ih =>
    intro st
    obtain ⟨hstrip, hcfg⟩ := hts t (List.mem_cons_self t rest)
    obtain ⟨rules, hrules⟩ := Option.isSome_iff_exists.mp hcfg
    rw [List.foldl_cons, ih (fun t' ht' => hts t' (List.mem_cons_of_mem t ht')),
        procTuple_flags iv st t rules (by rw [hstrip]; exact hrules), hstrip,
        List.map_cons, List.append_assoc, List.singleton_append]

theorem foldl_procTuple_icon (iv : String → Bool) (ts : List (String × String))
    (hts : ∀ t ∈ ts, String.mk (pyStrip t.1.data) = t.1 ∧ (flagConfig t.1).isSome) :
    ∀ st : PState, (ts.foldl (procTuple iv) st).icon = iconFoldSpec iv ts st.icon := by
  induction ts with
  | nil => intro st; rfl
  | cons t rest ih =>
    intro st
    obtain ⟨hstrip, _⟩ := hts t (List.mem_cons_self t rest)
    rw [List.foldl_cons, ih (fun t' ht' => hts t' (List.mem_cons_of_mem t ht'))]
    unfold iconFoldSpec
    rw [List.foldl_cons]
    by_cases hicon : t.1 = "ICON"
    · rw [procTuple_icon_ICON iv st t (by rw [hstrip]; exact hicon)]
      cases hp : (normParamL t.2.data).isEmpty with
      | true => simp
      | false => simp [hicon]
    · rw [procTuple_icon_other iv st t (by rw [hstrip]; exact hicon)]
      have hcond : ¬ (t.1 = "ICON" ∧ ¬ (normParamL t.2.data).isEmpty = true) := by
        intro hand
        exact hicon hand.1
      rw [if_neg hcond]

/-! ## The parse result in terms of the loop lemmas -/

theorem parse_err_eq (iv : String → Bool) (raw : String) :
    (parse_collection_name iv raw).error_msg =
      lastWins (parseInitErr raw) ((parseTuples raw).map (tupleMsgT iv)) := by
  unfold parse_collection_name parseInitErr
  cases h : (parseLeftover raw).isEmpty with
  | true =>
    simp only [h, if_true]
    exact foldl_procTuple_err iv (parseTuples raw) ⟨true, none, none, [], []⟩
  | false =>
    simp only [h, Bool.false_eq_true, if_false]
    exact foldl_procTuple_err iv (parseTuples raw) _

theorem parse_valid_eq (iv : String → Bool) (raw : String) :
    (parse_collection_name iv raw).is_valid =
      ((parseLeftover raw).isEmpty &&
        ((parseTuples raw).map (tupleMsgT iv)).all Option.isNone) := by
  unfold parse_collection_name
  cases h : (parseLeftover raw).isEmpty with
  | true =>
    simp only [h, if_true, Bool.true_and]
    have := foldl_procTuple_valid iv (parseTuples raw)
      (⟨true, none, none, [], []⟩ : PState)
    simpa using this
  | false =>
    simp only [h, Bool.false_eq_true, if_false, Bool.false_and]
    have := foldl_procTuple_valid iv (parseTuples raw)
      (⟨false, some ("SYNTAX ERROR: " ++ String.mk (parseLeftover raw)),
        none, [], []⟩ : PState)
    simpa using this

theorem parse_clean_eq (iv : String → Bool) (raw : String) :
    (parse_collection_name iv raw).clean_name =
      if (parseLeftover raw).isEmpty then String.mk (labelStrip raw).1 else "" := rfl

/-! ## Claim C3: flags requiring a parameter -/

/-- C3 counterexample: FILTER's declared parameter domain is the fixed
set `{IFHIDDEN}`, yet `(FILTER)` written without any parameter parses
**valid** with no error — the domain check at line 444 only fires when a
parameter is present (`elif p and ...`), and FILTER has no validator, so
a missing parameter is silently accepted for every fixed-set flag. -/
theorem c3_fixed_set_no_param_cex :
    parseTuples "(FILTER)" = [("FILTER", "")] ∧
    (flagConfig "FILTER").map FlagRule.params = some (ParamSpec.fixedP ["IFHIDDEN"]) ∧
    (parse_collection_name (fun _ => false) "(FILTER)").is_valid = true ∧
    (parse_collection_name (fun _ => false) "(FILTER)").error_msg = none := by
  decide

/-- C3 (amended): only a flag whose rule carries the dynamic validator
marker (ICON) requires a parameter: an ICON occurrence whose parameter
normalizes to empty makes the whole name invalid with a descriptive
error, and across multiple problems in one name parsing continues with
the last error winning (the final message is the left-to-right overwrite
fold of the leftover error and all per-tuple errors). Flags with a fixed
parameter set (FILTER) accept a missing parameter. -/
theorem c3_missing_param_amended (iv : String → Bool) (raw : String) (p : String)
    (hmem : ("ICON", p) ∈ parseTuples raw)
    (hp : normParamL p.data = []) :
    (parse_collection_name iv raw).is_valid = false ∧
    (parse_collection_name iv raw).error_msg ≠ none ∧
    (parse_collection_name iv raw).error_msg =
      lastWins (parseInitErr raw) ((parseTuples raw).map (tupleMsgT iv)) := by
  have hmsg : tupleMsgT iv ("ICON", p) = some "SYNTAX ERROR: ICON missing parameter" := by
    have hstrip : String.mk (pyStrip ("ICON" : String).data) = "ICON" := by decide
    have hI : flagConfig "ICON" = some ⟨ParamSpec.dynamicP, true⟩ := by decide
    simp only [tupleMsgT, hstrip, hI, hp]
    rfl
  refine ⟨?_, ?_, parse_err_eq iv raw⟩
  · rw [parse_valid_eq]
    cases hall : ((parseTuples raw).map (tupleMsgT iv)).all Option.isNone with
    | false => simp
    | true =>
      exfalso
      have hx := List.all_eq_true.mp hall _ (List.mem_map_of_mem (tupleMsgT iv) hmem)
      rw [hmsg] at hx
      simp at hx
  · rw [parse_err_eq]
    have hs := lastWins_isSome ((parseTuples raw).map (tupleMsgT iv))
      (tupleMsgT iv ("ICON", p)) (List.mem_map_of_mem (tupleMsgT iv) hmem)
      (by rw [hmsg]; rfl) (parseInitErr raw)
    exact Option.ne_none_iff_isSome.mpr hs

/-- C3 witness: the amended theorem at the one-flag name `(ICON)`. -/
theorem c3_missing_param_amended_witness :
    (parse_collection_name (fun _ => false) "(ICON)").is_valid = false ∧
    (parse_collection_name (fun _ => false) "(ICON)").error_msg ≠ none ∧
    (parse_collection_name (fun _ => false) "(ICON)").error_msg =
      lastWins (parseInitErr "(ICON)")
        ((parseTuples "(ICON)").map (tupleMsgT (fun _ => false))) :=
  c3_missing_param_amended (fun _ => false) "(ICON)" "" (by decide) (by decide)

/-! ## Claim C8: leftover text -/

/-- C8 counterexample: the name `garbage (FILTER)[X]` has the non-empty
leftover `garbage`, so it parses invalid with the label discarded — but
the leftover error is subsequently overwritten by the FILTER parameter
error (last error wins), so the leftover text does **not** appear in the
final error message. -/
theorem c8_leftover_error_cex :
    parseLeftover "garbage (FILTER)[X]" = "garbage".data ∧
    (parse_collection_name (fun _ => false) "garbage (FILTER)[X]").is_valid = false ∧
    (parse_collection_name (fun _ => false) "garbage (FILTER)[X]").error_msg =
      some ("SYNTAX ERROR: " ++ quoteStr ++ "X" ++ quoteStr ++ " is not valid for FILTER") ∧
    hasSub "garbage"
      ("SYNTAX ERROR: " ++ quoteStr ++ "X" ++ quoteStr ++ " is not valid for FILTER") = false := by
  decide

theorem leadsWith_self_app : ∀ (l t : List Char), leadsWith l (l ++ t) = true := by
  intro l
  induction l with
  | nil => intro t; rfl
  | cons c cs ih => intro t; simp [leadsWith, ih]

theorem hasSubL_suffix : ∀ (a pat : List Char), hasSubL pat (a ++ pat) = true := by
  intro a
  induction a with
  | nil =>
    intro pat
    cases pat with
    | nil => rfl
    | cons c cs =>
      have h := leadsWith_self_app (c :: cs) []
      rw [List.append_nil] at h
      simp [hasSubL, h]
  | cons x a ih =>
    intro pat
    simp [hasSubL, ih]

theorem strData_append (a b : String) : (a ++ b).data = a.data ++ b.data := rfl

/-- C8 (amended): whenever non-whitespace text remains after removing the
label span and the flag tuples, the parse is invalid and the label is
discarded (reset to the empty string); the error message is the
last-error-wins fold starting from the leftover error, so the leftover
text appears in the final error message exactly when no later flag
occurrence produced its own error (which would overwrite it). -/
theorem c8_leftover_amended (iv : String → Bool) (raw : String)
    (h : (parseLeftover raw).isEmpty = false) :
    (parse_collection_name iv raw).is_valid = false ∧
    (parse_collection_name iv raw).clean_name = "" ∧
    (parse_collection_name iv raw).error_msg =
      lastWins (some ("SYNTAX ERROR: " ++ String.mk (parseLeftover raw)))
        ((parseTuples raw).map (tupleMsgT iv)) ∧
    (((parseTuples raw).map (tupleMsgT iv)).all Option.isNone = true →
      (parse_collection_name iv raw).error_msg =
        some ("SYNTAX ERROR: " ++ String.mk (parseLeftover raw)) ∧
      hasSub (String.mk (parseLeftover raw))
        ("SYNTAX ERROR: " ++ String.mk (parseLeftover raw)) = true) := by
  have herr : (parse_collection_name iv raw).error_msg =
      lastWins (some ("SYNTAX ERROR: " ++ String.mk (parseLeftover raw)))
        ((parseTuples raw).map (tupleMsgT iv)) := by
    rw [parse_err_eq]
    unfold parseInitErr
    rw [h]
    simp
  refine ⟨?_, ?_, herr, ?_⟩
  · rw [parse_valid_eq, h]
    simp
  · rw [parse_clean_eq, h]
    simp
  · intro hall
    refine ⟨?_, ?_⟩
    · rw [herr, lastWins_all_none _ hall]
    · unfold hasSub
      rw [strData_append]
      exact hasSubL_suffix ("SYNTAX ERROR: ".data) (parseLeftover raw)

/-- C8 witness: the amended theorem on the spec's scenario
`{Leg} garbage (HIDE)` — the leftover is `garbage`, the name is invalid,
the label is discarded, and (no flag error overwriting it) the error
message is `SYNTAX ERROR: garbage`, which contains the leftover. -/
theorem c8_leftover_amended_witness :
    (parse_collection_name (fun _ => false) "\x7bLeg\x7d garbage (HIDE)").is_valid = false ∧
    (parse_collection_name (fun _ => false) "\x7bLeg\x7d garbage (HIDE)").clean_name = "" ∧
    (parse_collection_name (fun _ => false) "\x7bLeg\x7d garbage (HIDE)").error_msg =
      lastWins (some ("SYNTAX ERROR: " ++
          String.mk (parseLeftover "\x7bLeg\x7d garbage (HIDE)")))
        ((parseTuples "\x7bLeg\x7d garbage (HIDE)").map (tupleMsgT (fun _ => false))) ∧
    (((parseTuples "\x7bLeg\x7d garbage (HIDE)").map
        (tupleMsgT (fun _ => false))).all Option.isNone = true →
      (parse_collection_name (fun _ => false) "\x7bLeg\x7d garbage (HIDE)").error_msg =
        some ("SYNTAX ERROR: " ++
          String.mk (parseLeftover "\x7bLeg\x7d garbage (HIDE)")) ∧
      hasSub (String.mk (parseLeftover "\x7bLeg\x7d garbage (HIDE)"))
        ("SYNTAX ERROR: " ++
          String.mk (parseLeftover "\x7bLeg\x7d garbage (HIDE)")) = true) :=
  c8_leftover_amended (fun _ => false) "\x7bLeg\x7d garbage (HIDE)" (by decide)

/-! ## Claim C9: parse outputs -/

/-- C9 counterexample: in `(ICON)['A'](ICON)[B]` with a validator
accepting exactly `A`, the last **valid** ICON parameter seen is `A`,
but the later rejected ICON occurrence overwrites the icon with the
sentinel `ERROR` — so "icon equals the parameter of the last valid ICON
occurrence seen" is false. -/
theorem c9_icon_error_cex :
    (parse_collection_name c9IV c9Name).flag_list = [("ICON", "A"), ("ICON", "B")] ∧
    c9IV "A" = true ∧
    c9IV "B" = false ∧
    (parse_collection_name c9IV c9Name).icon_name = some "ERROR" ∧
    ¬ ((parse_collection_name c9IV c9Name).icon_name = some "A") := by
  decide

/-- C9 (amended): `active_flags` is the set of flag keywords seen, even
when an occurrence was itself invalid; `flag_list` is the ordered list of
(flag, normalized parameter) pairs preserving duplicates and original
order; and `icon_name` is determined by the **last ICON occurrence whose
parameter is present**: its parameter when the validator accepts it, the
sentinel `ERROR` when it rejects it (`iconFoldSpec`), rather than by the
last valid occurrence. -/
theorem c9_parse_outputs_amended (iv : String → Bool) (raw : String) :
    (∀ f, f ∈ (parse_collection_name iv raw).active_flags ↔
        ∃ p, (f, p) ∈ parseTuples raw) ∧
    (parse_collection_name iv raw).flag_list =
      (parseTuples raw).map (fun t => (t.1, String.mk (normParamL t.2.data))) ∧
    (parse_collection_name iv raw).icon_name = iconFoldSpec iv (parseTuples raw) none := by
  refine ⟨?_, ?_, ?_⟩
  · intro f
    unfold parse_collection_name
    cases h : (parseLeftover raw).isEmpty with
    | true =>
      simp only [h, if_true]
      rw [foldl_procTuple_active iv (parseTuples raw) (parseTuples_wf raw)]
      simp
    | false =>
      simp only [h, Bool.false_eq_true, if_false]
      rw [foldl_procTuple_active iv (parseTuples raw) (parseTuples_wf raw)]
      simp
  · unfold parse_collection_name
    cases h : (parseLeftover raw).isEmpty with
    | true =>
      simp only [h, if_true]
      rw [foldl_procTuple_flags iv (parseTuples raw) (parseTuples_wf raw)]
      simp
    | false =>
      simp only [h, Bool.false_eq_true, if_false]
      rw [foldl_procTuple_flags iv (parseTuples raw) (parseTuples_wf raw)]
      simp
  · unfold parse_collection_name
    cases h : (parseLeftover raw).isEmpty with
    | true =>
      simp only [h, if_true]
      exact foldl_procTuple_icon iv (parseTuples raw) (parseTuples_wf raw) _
    | false =>
      simp only [h, Bool.false_eq_true, if_false]
      exact foldl_procTuple_icon iv (parseTuples raw) (parseTuples_wf raw) _

/-! ## Claim C10: scanner zone classification and descent stopping -/

theorem ttOfN_nmSet (nm : NodeMap) (k : String) (v : Node) (n : String) :
    ttOfN (nmSet nm k v) n = if n = k then some v.tree_type else ttOfN nm n := by
  unfold ttOfN
  rw [nmLookup_nmSet]
  by_cases h : n = k <;> simp [h]

theorem ttOfN_nmAppendChild (nm : NodeMap) (p c : String) (n : String) :
    ttOfN (nmAppendChild nm p c) n = ttOfN nm n := by
  unfold ttOfN nmAppendChild nmModify
  cases hq : nmLookup nm p with
  | none => rfl
  | some nd =>
    rw [nmLookup_nmSet]
    by_cases h : n = p
    · rw [if_pos h, h, hq]
      rfl
    · rw [if_neg h]

theorem ttOfN_nmSetOverflow (nm : NodeMap) (k : String) (n : String) :
    ttOfN (nmSetOverflow nm k) n = ttOfN nm n := by
  unfold ttOfN nmSetOverflow nmModify
  cases hq : nmLookup nm k with
  | none => rfl
  | some nd =>
    rw [nmLookup_nmSet]
    by_cases h : n = k
    · rw [if_pos h, h, hq]
      rfl
    · rw [if_neg h]

/-- Scanning a list of subtrees does not change the `tree_type` stored
for any name that occurs nowhere in those subtrees (strong induction on
the number of names in the forest). -/
theorem scanChildList_tt_aux (k : Nat) :
    ∀ (bs : List BColl) (isk : Bool) (parent : String) (depth : Nat)
      (ctx : Option Ctx) (st : ScanSt) (n : String),
      (namesOfL bs).length ≤ k → n ∉ namesOfL bs →
      ttOfN (scanChildList isk parent depth ctx st bs).node_map n =
        ttOfN st.node_map n := by
  induction k with
  | zero =>
    intro bs isk parent depth ctx st n hk hn
    cases bs with
    | nil => rfl
    | cons b rest =>
      exfalso
      obtain ⟨raw, vis, solo, children⟩ := b
      simp [namesOfL, namesOfB] at hk
  | succ k ih =>
    intro bs isk parent depth ctx st n hk hn
    cases bs with
    | nil => rfl
    | cons b rest =>
      obtain ⟨raw, vis, solo, children⟩ := b
      simp only [namesOfL, namesOfB, List.cons_append, List.mem_cons,
        List.mem_append, List.length_cons, List.length_append] at hk hn
      push_neg at hn
      obtain ⟨hn1, hn2, hn3⟩ := hn
      have hlc : (namesOfL children).length ≤ k := by omega
      have hlr : (namesOfL rest).length ≤ k := by omega
      simp only [scanChildList]
      rw [ih rest isk parent depth ctx _ n hlr hn3]
      simp only [scanNode]
      split
      · rw [ttOfN_nmAppendChild, ttOfN_nmSet, if_neg hn1]
      · split
        · rw [ttOfN_nmAppendChild, ttOfN_nmSet, if_neg hn1]
        · split
          · rw [ih children isk raw (depth + 1) _ _ n hlc hn2,
                ttOfN_nmAppendChild, ttOfN_nmSet, if_neg hn1]
          · split
            · rw [ttOfN_nmSetOverflow, ttOfN_nmAppendChild, ttOfN_nmSet, if_neg hn1]
            · rw [ttOfN_nmAppendChild, ttOfN_nmSet, if_neg hn1]

/-- C10: the scanner's zone classification and descent stopping are
decided by raw-substring containment on the collection name — wherever
the marker appears, including inside the `{...}` label span, and
independently of the flag parser. For a top-level collection: any name
containing the literal `(SKIP)` (with the default `ignore_skip = False`),
or one classified Internal, is recorded in the node map (with an empty
`children` list) but its children are never pushed — the scan result
holds exactly the one node; the recorded `tree_type` is `classifyName`
of the raw name; and `classifyName` is exactly the four-marker
containment chain with DISPLAYS/SETTINGS/SNAPS/INTERNALS precedence. -/
theorem c10_scanner_substring (raw : String) (vis solo : Bool)
    (children : List BColl) (hname : raw ∉ namesOfL children) :
    (hasSub "(SKIP)" raw = true →
      run_structure_scanner [.mk raw vis solo children] false =
        ⟨[(raw, scannedRootNode raw vis solo)], [raw], [raw]⟩) ∧
    (classifyName raw = some Ctx.INTERNAL →
      run_structure_scanner [.mk raw vis solo children] false =
        ⟨[(raw, scannedRootNode raw vis solo)], [raw], [raw]⟩) ∧
    (ttOfN (run_structure_scanner [.mk raw vis solo children] false).node_map raw =
      some (classifyName raw)) ∧
    (hasSub "(DISPLAYS)" raw = true → classifyName raw = some Ctx.VIS) ∧
    (hasSub "(SETTINGS)" raw = true → hasSub "(DISPLAYS)" raw = false →
      classifyName raw = some Ctx.PROP) ∧
    (hasSub "(SNAPS)" raw = true → hasSub "(DISPLAYS)" raw = false →
      hasSub "(SETTINGS)" raw = false → classifyName raw = some Ctx.SNAP) ∧
    (hasSub "(INTERNALS)" raw = true → hasSub "(DISPLAYS)" raw = false →
      hasSub "(SETTINGS)" raw = false → hasSub "(SNAPS)" raw = false →
      classifyName raw = some Ctx.INTERNAL) := by
  have hscan : run_structure_scanner [.mk raw vis solo children] false =
      scanNode false none 0 none ⟨[], [], []⟩ (.mk raw vis solo children) := rfl
  refine ⟨?_, ?_, ?_, ?_, ?_, ?_, ?_⟩
  · intro hskip
    rw [hscan]
    simp only [scanNode, Bool.not_false, Bool.true_and, hskip, if_true]
    rfl
  · intro hctx
    rw [hscan]
    by_cases hskip : hasSub "(SKIP)" raw = true
    · simp only [scanNode, Bool.not_false, Bool.true_and, hskip, if_true]
      rfl
    · simp only [scanNode, Bool.not_false, Bool.true_and,
        Bool.eq_false_iff.mpr hskip, Bool.false_eq_true, if_false, hctx]
      simp only [decide_eq_true_eq, if_pos]
      simp [scannedRootNode, nmSet, hctx]
  · rw [hscan]
    simp only [scanNode, Bool.not_false, Bool.true_and]
    split
    · rw [ttOfN_nmSet, if_pos rfl]
    · split
      · rw [ttOfN_nmSet, if_pos rfl]
      · split
        · rw [scanChildList_tt_aux (namesOfL children).length children false raw 1 _
              _ raw (Nat.le_refl _) hname,
            ttOfN_nmSet, if_pos rfl]
        · split
          · rw [ttOfN_nmSetOverflow, ttOfN_nmSet, if_pos rfl]
          · rw [ttOfN_nmSet, if_pos rfl]
  · intro h1
    simp [classifyName, h1]
  · intro h1 h2
    simp [classifyName, h1, h2]
  · intro h1 h2 h3
    simp [classifyName, h1, h2, h3]
  · intro h1 h2 h3 h4
    simp [classifyName, h1, h2, h3, h4]

/-- C10 witness: a root whose `(SKIP)` marker sits **inside** the label
braces: the scanner still records only the root and never pushes the
child, although the flag parser attributes no SKIP flag to that name —
the scanner's decision is raw-substring containment, independent of the
parser. -/
theorem c10_scanner_substring_witness :
    (run_structure_scanner [.mk "\x7bX (SKIP)\x7d" true false
        [.mk "child" true false []]] false =
      ⟨[("\x7bX (SKIP)\x7d", scannedRootNode "\x7bX (SKIP)\x7d" true false)],
        ["\x7bX (SKIP)\x7d"], ["\x7bX (SKIP)\x7d"]⟩) ∧
    "SKIP" ∉ (parse_collection_name (fun _ => false) "\x7bX (SKIP)\x7d").active_flags :=
  ⟨(c10_scanner_substring "\x7bX (SKIP)\x7d" true false
      [.mk "child" true false []] (by decide)).1 (by decide),
    by decide⟩

end Rrug

